import Mathlib

/-!
Verification of the arbitrage core of the GalaSwap/Binance trading bot.

This file gives a shallow embedding of the arbitrage strategy
(src/strategies/arbitrage/arbitrage_strategy.ts): the opportunity
evaluators, the candidate search driver with its GWETH circuit breaker,
the execution decision, and the dual-venue executor, together with
theorems about the properties the specification states for them.

Modelling conventions:
- JavaScript numbers are modelled as rationals; the claims under
  verification are about the algebraic structure of the computations,
  which double rounding preserves verbatim (each formula is proved for
  the exact expression the code builds).
- External collaborators (the on-chain router, the Binance API, the
  trading client, the status reporter) are modelled as an environment
  record of response functions; side effects (quote calls, trade
  submissions, alerts, the logs the claims mention) are collected in an
  event trace.
- Thrown JS exceptions are modelled with Except; a catch block is a
  match on the Except value.
-/

namespace TradingBot

/-- Token class key as the strategy builds it (collection, category Unit,
type none, additionalKey none). -/
structure TokenClassKey where
  collection : String
  category : String
  typ : String
  additionalKey : String
deriving DecidableEq

/-- Key constructor used throughout the strategy (always Unit/none/none). -/
def mkTokenKey (c : String) : TokenClassKey :=
  { collection := c, category := "Unit", typ := "none", additionalKey := "none" }

/-- Quote returned by galaChainRouter.getQuote: amountOut plus an optional
fee tier. -/
structure Quote where
  amountOut : ℚ
  feeTier : Option ℚ
deriving DecidableEq

/-- Error thrown by getQuote, as the strategy distinguishes it: a CONFLICT
error (code 409 or key CONFLICT) whose message mentions liquidity, a
CONFLICT with any other message, or any other error. All three lead the
evaluator to return null; they differ only in what is logged. -/
inductive QuoteError where
  | conflictLiquidity
  | conflictOther
  | other
deriving DecidableEq

/-- Outcome of a call to galaChainRouter.getQuote: a quote, a null
response, or a thrown error. -/
inductive QuoteOutcome where
  | ok (q : Quote)
  | nullQuote
  | err (e : QuoteError)
deriving DecidableEq

/-! Class constants of ArbitrageStrategy (lines 32-57 of the source). -/

def GALA_AMOUNT : ℚ := 5000
def MIN_PROFIT_GALA : ℚ := 1
def BINANCE_MARKET_FEE_RATE : ℚ := 1/1000
def BINANCE_MAKER_FEE_RATE : ℚ := 2/10000
def GAS_FEE_GALA : ℚ := 1/2
def MIN_GALA_AMOUNT : ℚ := 1000
def TRADE_SIZE_OPTIONS : List ℚ := [1000, 2000, 3000, 4000, 5000]
def GWETH_MAX_FAILURES : ℕ := 3
def GWETH_RETRY_INTERVAL : ℤ := 300000
def ARBITRAGE_CHECK_INTERVAL : ℤ := 60000

/-- The ALLOW_LOSS_TRADES class constant is true in the source; the tick
is parameterized over it below so that both settings can be reasoned
about, as the specification does. -/
def ALLOW_LOSS_TRADES : Bool := true

/-- Environment of one tick: every external response the strategy can
observe during the tick. -/
structure TickEnv where
  /-- options.now.getTime() or Date.now() at the top of doTick. -/
  nowMs : ℤ
  /-- Date.now() re-read inside the try block (line 171), used by the
  circuit breaker. -/
  nowMs2 : ℤ
  /-- whether binanceApi, binanceTrading and galaChainRouter are all
  present in options. -/
  hasDeps : Bool
  /-- quantity of the own-balance entry with collection GALA, if any. -/
  galaBalance : Option ℚ
  /-- galaChainRouter.getQuote response by token-in key, token-out key
  and amount. -/
  getQuote : TokenClassKey → TokenClassKey → ℚ → QuoteOutcome
  /-- binanceApi.getPrice: price by symbol, none for a null response. -/
  getPrice : String → Option ℚ
  /-- binanceApi.getBalances: either throws, or returns the free USDT
  balance (none when the USDT entry is absent). -/
  usdtBalance : Except Unit (Option ℚ)
  /-- galaChainRouter.requestSwap outcome: ok or thrown. -/
  requestSwapOutcome : Except Unit Unit
  /-- binanceTrading.executeTrade outcome by symbol: ok or thrown. -/
  executeTradeOutcome : String → Except Unit Unit

/-- The record checkArbitrageOpportunity and
checkReverseArbitrageOpportunity return (when not null). -/
structure Opportunity where
  receivingTokenAmount : ℚ
  galaBuyableOnBinance : ℚ
  totalFees : ℚ
  netProfit : ℚ
  pair : String
deriving DecidableEq

/-- Kind of message passed to reporter.sendAlert. The two call sites in
the source are the loss-trade alert (line 426) and the opportunity alert
(line 442), both sent before execution starts. -/
inductive AlertKind where
  | lossTradeAlert
  | opportunityAlert
deriving DecidableEq

/-- Observable events of one tick: the external calls the claims talk
about, plus the diagnostic logs the claims mention, with the payload
fields the source actually logs. -/
inductive Event where
  /-- a call to galaChainRouter.getQuote (venue-A quote adapter). -/
  | quoteCall (tokenIn tokenOut : String) (amountIn : ℚ)
  /-- a call to galaChainRouter.requestSwap. -/
  | requestSwapCall (offeredCollection : String) (offeredQty : ℚ)
      (wantedCollection : String) (wantedQty : ℚ)
  /-- a call to binanceTrading.executeTrade. -/
  | binanceTrade (symbol side orderType : String) (quantity : ℚ)
  /-- a call to reporter.sendAlert. -/
  | alert (kind : AlertKind)
  /-- the info log at line 458 (opportunity found but not executing):
  its payload has netProfit, minRequired and the trade amount but no
  pair and no direction. -/
  | logNotExecuting (netProfit minRequired tradeAmount : ℚ)
      (allowLossTrades : Bool)
  /-- the warn log at line 479 (no profitable opportunity): its payload
  carries the best candidate's tradeSize, netProfit, pair and
  direction. -/
  | logNoProfitSummary (tradeSize netProfit : ℚ) (pair dir : String)
  /-- the info log at line 498 (no opportunities found at all). -/
  | logNoOpportunities
  /-- the error log in the catch at the tick boundary (line 509). -/
  | logTickError
deriving DecidableEq

/-- Fee tier taken from a quote: galaSwapQuote.feeTier if truthy
(JavaScript: 0 is falsy), else the 3000 default. -/
def feeTierOrDefault (q : Quote) : ℚ :=
  match q.feeTier with
  | some t => if t = 0 then 3000 else t
  | none => 3000

/-- Fee-tier-to-rate conversion of the strategy in
src/strategies/arbitrage/arbitrage_strategy.ts (lines 627 and 846):
divide the tier by 10000. -/
def actualGalaSwapFeeRate_src (feeTier : ℚ) : ℚ := feeTier / 10000

/-- Fee-tier-to-rate conversion of the strategy variant in
src/unnamed/part_011 (its checkArbitrageOpportunity): divide the tier by
1000000. -/
def actualGalaSwapFeeRate_part011 (feeTier : ℚ) : ℚ := feeTier / 1000000

/-- getFeeTierPercentage from dependencies/galadefi/fee_tiers.ts. -/
def getFeeTierPercentage (feeTier : ℚ) : ℚ := feeTier / 10000

/-- The fee-tier documentation in fee_tiers.ts, as a rate: 500 is
documented as 0.05 percent, 3000 as 0.30 percent, 10000 as 1.00
percent. -/
def documentedFeeTierRate (feeTier : ℚ) : Option ℚ :=
  if feeTier = 500 then some (5/10000)
  else if feeTier = 3000 then some (30/10000)
  else if feeTier = 10000 then some (100/10000)
  else none

/-- The three FEE_TIERS of fee_tiers.ts. -/
def FEE_TIERS : List ℚ := [500, 3000, 10000]

/-- Forward evaluator, lines 530-769 of the source
(checkArbitrageOpportunity): quote the venue-A swap, price the received
token on venue B, compute fees from the quote's fee tier and the
Binance market rate plus the gas constant, and return the opportunity;
any quote error, null quote or missing price yields none. The returned
event list records the venue-A quote call. -/
def checkArbitrageOpportunity (env : TickEnv) (galaAmount : ℚ)
    (galaToken receivingToken : String) ( _binanceSymbol : String)
    (quoteCurrency : String) : List Event × Option Opportunity :=
  let events := [Event.quoteCall galaToken receivingToken galaAmount]
  match env.getQuote (mkTokenKey galaToken) (mkTokenKey receivingToken) galaAmount with
  | .err _ => (events, none)
  | .nullQuote => (events, none)
  | .ok q =>
    let receivingTokenAmount := q.amountOut
    let feeTier := feeTierOrDefault q
    let actualGalaSwapFeeRate := feeTier / 10000
    let isStablecoin := receivingToken == "GUSDC" || receivingToken == "GUSDT"
    let quotePriceUsdtOpt : Option ℚ :=
      if isStablecoin then some 1 else env.getPrice quoteCurrency
    match quotePriceUsdtOpt with
    | none => (events, none)
    | some quotePriceUsdt =>
      match env.getPrice "GALAUSDT" with
      | none => (events, none)
      | some galaPriceUsdt =>
        let usdtValue :=
          if receivingToken == "GWETH" then receivingTokenAmount * quotePriceUsdt
          else receivingTokenAmount
        let galaBuyableOnBinance := usdtValue / galaPriceUsdt
        let galaSwapFee := galaAmount * actualGalaSwapFeeRate
        let binanceFee := galaBuyableOnBinance * BINANCE_MARKET_FEE_RATE
        let gasFee := GAS_FEE_GALA
        let totalFees := galaSwapFee + binanceFee + gasFee
        let netProfit := galaBuyableOnBinance - galaAmount - totalFees
        (events, some
          { receivingTokenAmount := receivingTokenAmount
            galaBuyableOnBinance := galaBuyableOnBinance
            totalFees := totalFees
            netProfit := netProfit
            pair := galaToken ++ "/" ++ receivingToken })

/-- Reverse evaluator, lines 775-892 of the source
(checkReverseArbitrageOpportunity): price GALA on Binance, cost the buy
including its fee, quote a GALA to GUSDC sale on venue A, net the fees
and convert the profit to GALA. -/
def checkReverseArbitrageOpportunity (env : TickEnv)
    (galaAmount usdtNeeded : ℚ) : List Event × Option Opportunity :=
  match env.getPrice "GALAUSDT" with
  | none => ([], none)
  | some galaPriceUsdt =>
    let binanceBuyFee := galaAmount * galaPriceUsdt * BINANCE_MARKET_FEE_RATE
    let totalCostUsdt := usdtNeeded + binanceBuyFee
    let events := [Event.quoteCall "GALA" "GUSDC" galaAmount]
    match env.getQuote (mkTokenKey "GALA") (mkTokenKey "GUSDC") galaAmount with
    | .err _ => (events, none)
    | .nullQuote => (events, none)
    | .ok q =>
      let receivingTokenAmount := q.amountOut
      let usdtReceived := receivingTokenAmount
      let feeTier := feeTierOrDefault q
      let actualGalaSwapFeeRate := feeTier / 10000
      let galaSwapFee := galaAmount * actualGalaSwapFeeRate
      let gasFee := GAS_FEE_GALA
      let totalFees := binanceBuyFee + galaSwapFee + gasFee
      let netProfit := usdtReceived - totalCostUsdt - totalFees
      let netProfitGala := netProfit / galaPriceUsdt
      (events, some
        { receivingTokenAmount := receivingTokenAmount
          galaBuyableOnBinance := galaAmount
          totalFees := totalFees
          netProfit := netProfitGala
          pair := "GALA/GUSDC" })

/-- Best-opportunity record built by doTick (lines 152-160): the
evaluator output plus tradeAmount and direction. -/
structure BestOpp where
  opp : Opportunity
  tradeAmount : ℚ
  direction : String
deriving DecidableEq

/-- Entry of the allOpportunities summary list (lines 163-168). -/
structure Candidate where
  tradeSize : ℚ
  netProfit : ℚ
  pair : String
  direction : String
deriving DecidableEq

/-- The best-so-far update of doTick (lines 300-316 for the forward
direction, 363-379 for the reverse): a candidate becomes the best only
when its netProfit is positive and strictly greater than the current
best's. -/
def updateBestOpp (best : Option BestOpp) (o : Opportunity)
    (tradeSize : ℚ) (dir : String) : Option BestOpp :=
  if 0 < o.netProfit then
    match best with
    | none => some { opp := o, tradeAmount := tradeSize, direction := dir }
    | some b =>
      if b.opp.netProfit < o.netProfit then
        some { opp := o, tradeAmount := tradeSize, direction := dir }
      else some b
  else best

/-- The driver's selection over a list of evaluated candidates in
evaluation order, each with its opportunity, trade size and direction:
fold of updateBestOpp from no best. -/
def selectBestFrom (acc : Option BestOpp)
    (cands : List (Opportunity × ℚ × String)) : Option BestOpp :=
  cands.foldl (fun b c => updateBestOpp b c.1 c.2.1 c.2.2) acc

/-- selectBestFrom starting from no best, as the cycle does. -/
def selectBest (cands : List (Opportunity × ℚ × String)) : Option BestOpp :=
  selectBestFrom none cands

/-- Mutable state threaded through the search loops of doTick. -/
structure LoopState where
  gwethFailureCount : ℕ
  gwethLastFailureTime : ℤ
  allOpportunities : List Candidate
  bestOpportunity : Option BestOpp
deriving DecidableEq

/-- An entry of ALTERNATIVE_PAIRS (lines 47-50). -/
structure AltPair where
  galaToken : String
  receivingToken : String
  binanceSymbol : String
deriving DecidableEq

def ALTERNATIVE_PAIRS : List AltPair :=
  [ { galaToken := "GALA", receivingToken := "GUSDC", binanceSymbol := "GALAUSDT" },
    { galaToken := "GALA", receivingToken := "GUSDT", binanceSymbol := "GALAUSDT" } ]

/-- The alternative-pair fallback loop (lines 254-287): try each
alternative pair in order with quote currency USDT, stopping at the
first that yields an opportunity. -/
def tryAlternativePairs (env : TickEnv) (tradeSize : ℚ) :
    List AltPair → List Event × Option Opportunity
  | [] => ([], none)
  | p :: rest =>
    let r := checkArbitrageOpportunity env tradeSize p.galaToken
      p.receivingToken p.binanceSymbol "USDT"
    match r.2 with
    | some o => (r.1, some o)
    | none =>
      let r2 := tryAlternativePairs env tradeSize rest
      (r.1 ++ r2.1, r2.2)

/-- The GALA/GWETH primary check with its circuit-breaker bookkeeping
(lines 200-251): skipped entirely when the breaker is active; any null
result increments the failure counter and stamps the failure time; any
opportunity resets the counter to zero. -/
def gwethCheckStep (env : TickEnv) (shouldSkipGweth : Bool) (ls : LoopState)
    (tradeSize : ℚ) : List Event × Option Opportunity × LoopState :=
  if shouldSkipGweth then ([], none, ls)
  else
    match checkArbitrageOpportunity env tradeSize "GALA" "GWETH" "GALAETH" "ETHUSDT" with
    | (evs, none) =>
      (evs, none, { ls with gwethFailureCount := ls.gwethFailureCount + 1,
                            gwethLastFailureTime := env.nowMs2 })
    | (evs, some o) => (evs, some o, { ls with gwethFailureCount := 0 })

/-- Record an evaluated opportunity (lines 290-317 and 355-380): append
it to allOpportunities and fold it into the best-so-far. -/
def recordOpportunity (ls : LoopState) (o : Opportunity) (tradeSize : ℚ)
    (dir : String) : LoopState :=
  { ls with
    allOpportunities := ls.allOpportunities ++
      [{ tradeSize := tradeSize, netProfit := o.netProfit, pair := o.pair,
         direction := dir }],
    bestOpportunity := updateBestOpp ls.bestOpportunity o tradeSize dir }

/-- Body of the forward per-size loop (lines 188-318): the GALA/GWETH
check with circuit-breaker bookkeeping, the alternative-pair fallback
when it yields nothing, and the recording of whatever opportunity was
found. -/
def forwardSizeStep (env : TickEnv) (shouldSkipGweth : Bool)
    (ls : LoopState) (tradeSize : ℚ) : List Event × LoopState :=
  match gwethCheckStep env shouldSkipGweth ls tradeSize with
  | (evs1, some o, ls1) => (evs1, recordOpportunity ls1 o tradeSize "GalaSwap->Binance")
  | (evs1, none, ls1) =>
    match tryAlternativePairs env tradeSize ALTERNATIVE_PAIRS with
    | (evs2, none) => (evs1 ++ evs2, ls1)
    | (evs2, some o) =>
      (evs1 ++ evs2, recordOpportunity ls1 o tradeSize "GalaSwap->Binance")

/-- The forward loop over the valid trade sizes (line 188). -/
def forwardLoop (env : TickEnv) (shouldSkipGweth : Bool) :
    List ℚ → LoopState → List Event × LoopState
  | [], ls => ([], ls)
  | s :: rest, ls =>
    let r := forwardSizeStep env shouldSkipGweth ls s
    let r2 := forwardLoop env shouldSkipGweth rest r.2
    (r.1 ++ r2.1, r2.2)

/-- Body of the reverse per-size loop (lines 336-382): price GALA on
Binance, skip when the cost exceeds the available USDT, evaluate the
reverse opportunity, record it and fold it into the best-so-far. -/
def reverseSizeStep (env : TickEnv) (availableUsdt : ℚ) (ls : LoopState)
    (tradeSize : ℚ) : List Event × LoopState :=
  match env.getPrice "GALAUSDT" with
  | none => ([], ls)
  | some galaPriceUsdt =>
    let usdtNeeded := tradeSize * galaPriceUsdt
    if availableUsdt < usdtNeeded then ([], ls)
    else
      match checkReverseArbitrageOpportunity env tradeSize usdtNeeded with
      | (evs, none) => (evs, ls)
      | (evs, some o) => (evs, recordOpportunity ls o tradeSize "Binance->GalaSwap")

/-- The reverse loop over the valid trade sizes (line 336). -/
def reverseLoop (env : TickEnv) (availableUsdt : ℚ) :
    List ℚ → LoopState → List Event × LoopState
  | [], ls => ([], ls)
  | s :: rest, ls =>
    let r := reverseSizeStep env availableUsdt ls s
    let r2 := reverseLoop env availableUsdt rest r.2
    (r.1 ++ r2.1, r2.2)

/-- The reverse-direction block (lines 322-399): fetch the USDT balance
(a throw is caught and logged), and run the reverse loop only when at
least 10 USDT is available. -/
def reverseBlock (env : TickEnv) (sizes : List ℚ) (ls : LoopState) :
    List Event × LoopState :=
  match env.usdtBalance with
  | .error _ => ([], ls)
  | .ok usdtOpt =>
    let availableUsdt := usdtOpt.getD 0
    if 10 ≤ availableUsdt then reverseLoop env availableUsdt sizes ls
    else ([], ls)

/-- The split of a character list on the slash character, with the
semantics of JavaScript String.prototype.split with a one-character
separator. -/
def splitSlash : List Char → List (List Char)
  | [] => [[]]
  | c :: rest =>
    let r := splitSlash rest
    if c = '/' then [] :: r
    else
      match r with
      | [] => [[c]]
      | h :: t => (c :: h) :: t

/-- Receiving token parsed from the opportunity pair in executeArbitrage
(lines 940-941): the second component of pair.split, defaulting to GWETH
when absent or empty (JavaScript: an empty string is falsy). -/
def receivingTokenOfPair (pair : String) : String :=
  match (splitSlash pair.toList).get? 1 with
  | some t => if t = [] then "GWETH" else String.mk t
  | none => "GWETH"

/-- executeReverseArbitrage (lines 1117-1243): price GALA on Binance (a
null price throws), buy GALA on Binance with USDT, then sell GALA on
venue A for GUSDC; any thrown error is logged and rethrown. -/
def executeReverseArbitrage (env : TickEnv) (opp : Opportunity)
    (galaAmount : ℚ) : List Event × Except Unit Unit :=
  match env.getPrice "GALAUSDT" with
  | none => ([], .error ())
  | some galaPriceUsdt =>
    let usdtNeeded := galaAmount * galaPriceUsdt
    let tradeEv := Event.binanceTrade "GALAUSDT" "BUY" "MARKET" usdtNeeded
    match env.executeTradeOutcome "GALAUSDT" with
    | .error _ => ([tradeEv], .error ())
    | .ok _ =>
      let swapEv := Event.requestSwapCall "GALA" galaAmount "GUSDC" opp.receivingTokenAmount
      match env.requestSwapOutcome with
      | .error _ => ([tradeEv, swapEv], .error ())
      | .ok _ => ([tradeEv, swapEv], .ok ())

/-- executeArbitrage (lines 898-1112). Reverse direction delegates to
executeReverseArbitrage. Forward direction: submit the venue-A swap; a
throw there is logged and rethrown (no venue-B leg attempted). On
success, for a GWETH receiving token the GALAETH price and trade sit in
an inner try whose catch only logs (a leg-2 throw there is swallowed and
the function returns normally after a warning); for GUSDC/GUSDT the
GALAUSDT market buy is submitted and a throw is logged and rethrown; an
unknown receiving token only logs a warning. No compensating trade is
submitted in any branch and no alert is sent from here. -/
def executeArbitrage (env : TickEnv) (opp : Opportunity) (galaAmount : ℚ)
    (direction : String) : List Event × Except Unit Unit :=
  if direction == "Binance->GalaSwap" then
    executeReverseArbitrage env opp galaAmount
  else
    let receivingToken := receivingTokenOfPair opp.pair
    let swapEv := Event.requestSwapCall "GALA" galaAmount receivingToken opp.receivingTokenAmount
    match env.requestSwapOutcome with
    | .error _ => ([swapEv], .error ())
    | .ok _ =>
      if receivingToken == "GWETH" then
        match env.getPrice "GALAETH" with
        | some _ =>
          let ethAmount := opp.receivingTokenAmount
          let tradeEv := Event.binanceTrade "GALAETH" "BUY" "MARKET" ethAmount
          match env.executeTradeOutcome "GALAETH" with
          | .ok _ => ([swapEv, tradeEv], .ok ())
          | .error _ => ([swapEv, tradeEv], .ok ())
        | none => ([swapEv], .ok ())
      else if receivingToken == "GUSDC" || receivingToken == "GUSDT" then
        let usdtAmount := opp.receivingTokenAmount
        let tradeEv := Event.binanceTrade "GALAUSDT" "BUY" "MARKET" usdtAmount
        match env.executeTradeOutcome "GALAUSDT" with
        | .ok _ => ([swapEv, tradeEv], .ok ())
        | .error _ => ([swapEv, tradeEv], .error ())
      else
        ([swapEv], .ok ())

/-- The execution gate of doTick (lines 406-409): execute when the best
opportunity is profitable and clears MIN_PROFIT_GALA, or when loss
trades are allowed and its netProfit is non-positive. -/
def shouldExecuteDecision (allowLossTrades : Bool) (best : Option BestOpp) : Bool :=
  let isProfitable :=
    match best with
    | some b => decide (0 < b.opp.netProfit) && decide (MIN_PROFIT_GALA ≤ b.opp.netProfit)
    | none => false
  let shouldExecuteLoss :=
    match best with
    | some b => allowLossTrades && decide (b.opp.netProfit ≤ 0)
    | none => false
  isProfitable || shouldExecuteLoss

/-- The reduce at line 475: first-found maximum-netProfit entry of the
allOpportunities list. -/
def bestUnprofitableOf (c : Candidate) (rest : List Candidate) : Candidate :=
  rest.foldl (fun best opp => if best.netProfit < opp.netProfit then opp else best) c

/-- The decision-and-execution tail of doTick (lines 401-507): alert and
execute when the gate passes, appending the tick-boundary error log when
the executor throws (the catch at line 508); otherwise log the
non-executed best (payload without pair), or the summary of the best
unprofitable candidate, or that nothing was found. -/
def decisionPhase (env : TickEnv) (allowLossTrades : Bool) (ls : LoopState) :
    List Event :=
  match ls.bestOpportunity with
  | some b =>
    if shouldExecuteDecision allowLossTrades (some b) then
      let isLoss := decide (b.opp.netProfit ≤ 0)
      let alertEv := Event.alert (if isLoss then .lossTradeAlert else .opportunityAlert)
      let r := executeArbitrage env b.opp b.tradeAmount b.direction
      match r.2 with
      | .ok _ => alertEv :: r.1
      | .error _ => alertEv :: (r.1 ++ [Event.logTickError])
    else
      [Event.logNotExecuting b.opp.netProfit MIN_PROFIT_GALA b.tradeAmount allowLossTrades]
  | none =>
    match ls.allOpportunities with
    | [] => [Event.logNoOpportunities]
    | c :: rest =>
      let bu := bestUnprofitableOf c rest
      [Event.logNoProfitSummary bu.tradeSize bu.netProfit bu.pair bu.direction]

/-- Strategy instance state that survives across ticks (lines 52-57). -/
structure StratState where
  lastArbitrageCheck : ℤ
  gwethFailureCount : ℕ
  gwethLastFailureTime : ℤ
deriving DecidableEq

/-- The result record of doTick. -/
structure TickResult where
  swapsToTerminate : List Unit
  swapsToAccept : List Unit
  swapsToCreate : List Unit
deriving DecidableEq

/-- The record every return site of doTick builds (lines 86-90, 105-109,
130-134, 517-521): all three lists empty. -/
def emptyTickResult : TickResult :=
  { swapsToTerminate := [], swapsToAccept := [], swapsToCreate := [] }

/-- Valid trade sizes (lines 148-150): TRADE_SIZE_OPTIONS filtered to
the available balance and the minimum; the source then sorts ascending,
which is the identity because the options are already ascending and
filtering preserves order. -/
def validSizes (availableGala : ℚ) : List ℚ :=
  TRADE_SIZE_OPTIONS.filter
    (fun s => decide (s ≤ availableGala) && decide (MIN_GALA_AMOUNT ≤ s))

/-- The search portion of a tick (lines 146-399): the circuit-breaker
skip decision, computed once from the failure count and the time of the
last failure, then the forward loop over all valid sizes followed by the
reverse block. -/
def shouldSkipGwethFlag (env : TickEnv) (failCount : ℕ) (lastFailTime : ℤ) : Bool :=
  decide (GWETH_MAX_FAILURES ≤ failCount) &&
    decide (env.nowMs2 - lastFailTime < GWETH_RETRY_INTERVAL)

/-- The search loops of a tick: the forward loop over all valid sizes
followed by the reverse block, starting from the breaker state carried
across ticks and an empty candidate list. -/
def runSearch (env : TickEnv) (failCount : ℕ) (lastFailTime : ℤ)
    (availableGala : ℚ) : List Event × LoopState :=
  let sizes := validSizes availableGala
  let shouldSkipGweth := shouldSkipGwethFlag env failCount lastFailTime
  let ls0 : LoopState :=
    { gwethFailureCount := failCount, gwethLastFailureTime := lastFailTime,
      allOpportunities := [], bestOpportunity := none }
  let rF := forwardLoop env shouldSkipGweth sizes ls0
  let rR := reverseBlock env sizes rF.2
  (rF.1 ++ rR.1, rR.2)

/-- doTick (lines 59-522), parameterized over the ALLOW_LOSS_TRADES
constant: rate-limit the tick, require the Binance and on-chain
dependencies, require a GALA balance of at least MIN_GALA_AMOUNT, run
the search, then decide and possibly execute; every branch returns the
empty swap-strategy result, and any error thrown during execution is
caught and logged at the tick boundary. -/
def doTick (env : TickEnv) (allowLossTrades : Bool) (st : StratState) :
    StratState × List Event × TickResult :=
  if env.nowMs - st.lastArbitrageCheck < ARBITRAGE_CHECK_INTERVAL then
    (st, [], emptyTickResult)
  else
    let st1 : StratState := { st with lastArbitrageCheck := env.nowMs }
    if !env.hasDeps then (st1, [], emptyTickResult)
    else
      match env.galaBalance with
      | none => (st1, [], emptyTickResult)
      | some availableGala =>
        if availableGala < MIN_GALA_AMOUNT then (st1, [], emptyTickResult)
        else
          let r := runSearch env st.gwethFailureCount st.gwethLastFailureTime availableGala
          let evsD := decisionPhase env allowLossTrades r.2
          let st2 : StratState :=
            { st1 with gwethFailureCount := r.2.gwethFailureCount,
                       gwethLastFailureTime := r.2.gwethLastFailureTime }
          (st2, r.1 ++ evsD, emptyTickResult)

/-- Discriminates the observable effects of an execution: venue-A swap
submissions, venue-B trade submissions and reporter alerts. -/
def Event.isExecutionEffect : Event → Bool
  | .requestSwapCall _ _ _ _ => true
  | .binanceTrade _ _ _ _ => true
  | .alert _ => true
  | _ => false

/-- Discriminates reporter alerts. -/
def Event.isAlert : Event → Bool
  | .alert _ => true
  | _ => false

/-- Discriminates venue-A quote-adapter calls. -/
def Event.isQuoteCall : Event → Bool
  | .quoteCall _ _ _ => true
  | _ => false

/-- Discriminates venue-A quote-adapter calls whose token out is GWETH. -/
def Event.isGwethQuote : Event → Bool
  | .quoteCall _ tokenOut _ => tokenOut == "GWETH"
  | _ => false

/-- Reverse-direction net profit as the claim states it: the value
received from selling on venue A minus the cost of buying on venue B,
with each fee component (venue-B buy fee, venue-A fee, gas) subtracted
exactly once and the GALA-denominated gas constant applied after the
conversion to GALA so that all terms share a unit. Written from the
wording of the specification to be compared against
checkReverseArbitrageOpportunity. -/
def reverseNetProfitClaimed (usdtReceived usdtNeeded binanceBuyFee
    galaSwapFee galaPriceUsdt : ℚ) : ℚ :=
  (usdtReceived - usdtNeeded - binanceBuyFee - galaSwapFee) / galaPriceUsdt
    - GAS_FEE_GALA

instance : DecidableEq (Except Unit Unit) := fun a b => by
  cases a with
  | ok x => cases b with
    | ok y => exact isTrue (by cases x; cases y; rfl)
    | error y => exact isFalse (by intro h; cases h)
  | error x => cases b with
    | ok y => exact isFalse (by intro h; cases h)
    | error y => exact isTrue (by cases x; cases y; rfl)

/-- The best-so-far is justified by the candidate list: whenever a best
opportunity is held, its netProfit is positive and equals the netProfit
of some recorded candidate. -/
def BestWitnessed (ls : LoopState) : Prop :=
  ∀ b, ls.bestOpportunity = some b →
    0 < b.opp.netProfit ∧ ∃ c ∈ ls.allOpportunities, c.netProfit = b.opp.netProfit

/-- The loop state a tick ends its search with. -/
def searchState (env : TickEnv) (failCount : ℕ) (lastFailTime : ℤ)
    (availableGala : ℚ) : LoopState :=
  (runSearch env failCount lastFailTime availableGala).2

/-- An opportunity with the given netProfit, for the concrete selection
example of the specification. -/
def oppOfProfit (p : ℚ) : Opportunity :=
  { receivingTokenAmount := 0, galaBuyableOnBinance := 0, totalFees := 0,
    netProfit := p, pair := "GALA/GWETH" }

/-- The profit ladder of the specification's selection example, in
evaluation order. -/
def profitLadderExample : List (Opportunity × ℚ × String) :=
  [ (oppOfProfit 2, 1000, "GalaSwap->Binance"),
    (oppOfProfit 5, 2000, "GalaSwap->Binance"),
    (oppOfProfit 3, 3000, "GalaSwap->Binance"),
    (oppOfProfit 8, 4000, "GalaSwap->Binance"),
    (oppOfProfit 1, 5000, "GalaSwap->Binance") ]

/-! Concrete environments used by the witnesses and counterexamples. -/

/-- Witness environment for the forward evaluator: the venue-A quote
returns 1100 GUSDC at fee tier 500 and GALA trades at 1 USDT. -/
def envW2 : TickEnv :=
  { nowMs := 0, nowMs2 := 0, hasDeps := true, galaBalance := some 1000,
    getQuote := fun _ _ _ => .ok { amountOut := 1100, feeTier := some 500 },
    getPrice := fun s => if s == "GALAUSDT" then some 1 else none,
    usdtBalance := .ok none, requestSwapOutcome := .ok (),
    executeTradeOutcome := fun _ => .ok () }

/-- The quote envW2 serves. -/
def qW2 : Quote := { amountOut := 1100, feeTier := some 500 }

/-- The opportunity the forward evaluator computes in envW2 at size
1000 over GALA/GUSDC. -/
def oppW2 : Opportunity :=
  { receivingTokenAmount := 1100, galaBuyableOnBinance := 1100,
    totalFees := 258/5, netProfit := 242/5, pair := "GALA/GUSDC" }

/-- Witness environment for the reverse evaluator: GALA at 1 USDT and a
1100 GUSDC quote at fee tier 3000. -/
def envW7 : TickEnv :=
  { envW2 with getQuote := fun _ _ _ => .ok { amountOut := 1100, feeTier := some 3000 } }

/-- The quote envW7 serves. -/
def qW7 : Quote := { amountOut := 1100, feeTier := some 3000 }

/-- The opportunity the reverse evaluator computes in envW7 at size 1000
with 1000 USDT budget. -/
def oppW7 : Opportunity :=
  { receivingTokenAmount := 1100, galaBuyableOnBinance := 1000,
    totalFees := 603/2, netProfit := -405/2, pair := "GALA/GUSDC" }

/-- Environment of the near-miss cycle: GALA/GWETH fails on liquidity,
the GALA/GUSDC fallback quotes 1052 at tier 500 and GALA trades at 1
USDT, giving a single candidate with netProfit 56/125, which is positive
but below the 1-GALA threshold. -/
def envC3x : TickEnv :=
  { nowMs := 60000, nowMs2 := 0, hasDeps := true, galaBalance := some 1000,
    getQuote := fun _ tout _ =>
      if tout.collection == "GUSDC" then .ok { amountOut := 1052, feeTier := some 500 }
      else .err .conflictLiquidity,
    getPrice := fun s => if s == "GALAUSDT" then some 1 else none,
    usdtBalance := .ok none, requestSwapOutcome := .ok (),
    executeTradeOutcome := fun _ => .ok () }

/-- Environment of the within-tick circuit-breaker counterexample: the
balance admits all five trade sizes and every venue-A quote fails with a
liquidity CONFLICT. -/
def envC4x : TickEnv :=
  { nowMs := 60000, nowMs2 := 1000, hasDeps := true, galaBalance := some 5000,
    getQuote := fun _ _ _ => .err .conflictLiquidity,
    getPrice := fun _ => none,
    usdtBalance := .ok none, requestSwapOutcome := .ok (),
    executeTradeOutcome := fun _ => .ok () }

/-- Fresh strategy state: no previous check, no recorded failures. -/
def stFresh : StratState :=
  { lastArbitrageCheck := 0, gwethFailureCount := 0, gwethLastFailureTime := 0 }

/-- Strategy state with the breaker open: three recorded failures, the
last at time 0. -/
def stOpenBreaker : StratState :=
  { lastArbitrageCheck := 0, gwethFailureCount := 3, gwethLastFailureTime := 0 }

/-- Environment for the breaker-open witness: a tick starting 1000 ms
after the last failure, well within the retry interval. -/
def envSkipW : TickEnv := { envC4x with nowMs2 := 1000 }

/-- Environment for the breaker-retry witness: a tick starting exactly
when the retry interval has elapsed. -/
def envRetryW : TickEnv := { envC4x with nowMs2 := 300000 }

/-- Environment of the partial-failure scenario: the GALA/GUSDC forward
opportunity is profitable (netProfit 211/25), the venue-A swap succeeds
and the venue-B GALAUSDT trade throws. -/
def envC1f : TickEnv :=
  { nowMs := 60000, nowMs2 := 0, hasDeps := true, galaBalance := some 1000,
    getQuote := fun _ tout _ =>
      if tout.collection == "GUSDC" then .ok { amountOut := 1060, feeTier := some 500 }
      else .err .conflictLiquidity,
    getPrice := fun s => if s == "GALAUSDT" then some 1 else none,
    usdtBalance := .ok none, requestSwapOutcome := .ok (),
    executeTradeOutcome := fun s => if s == "GALAUSDT" then .error () else .ok () }

/-- The same scenario with the venue-B trade succeeding. -/
def envC1s : TickEnv := { envC1f with executeTradeOutcome := fun _ => .ok () }

/-- The opportunity selected in envC1f. -/
def oppC1 : Opportunity :=
  { receivingTokenAmount := 1060, galaBuyableOnBinance := 1060,
    totalFees := 1289/25, netProfit := 211/25, pair := "GALA/GUSDC" }

/-- Environment of the non-liquidity failure-count counterexample: the
GALA/GWETH quote succeeds (the pool has liquidity) but the venue-B
GALAUSDT price is unavailable, so the check returns no opportunity. -/
def envC8x : TickEnv :=
  { nowMs := 60000, nowMs2 := 77, hasDeps := true, galaBalance := some 1000,
    getQuote := fun _ tout _ =>
      if tout.collection == "GWETH" then .ok { amountOut := 1, feeTier := some 3000 }
      else .err .other,
    getPrice := fun s => if s == "ETHUSDT" then some 2000 else none,
    usdtBalance := .ok none, requestSwapOutcome := .ok (),
    executeTradeOutcome := fun _ => .ok () }

/-- Empty loop state with no recorded failures. -/
def lsEmpty : LoopState :=
  { gwethFailureCount := 0, gwethLastFailureTime := 0,
    allOpportunities := [], bestOpportunity := none }

/-- Loop state with two recorded failures. -/
def lsTwoFails : LoopState :=
  { gwethFailureCount := 2, gwethLastFailureTime := 0,
    allOpportunities := [], bestOpportunity := none }

/-- The best opportunity the near-miss cycle selects in envC3x. -/
def bestC3x : BestOpp :=
  { opp := { receivingTokenAmount := 1052, galaBuyableOnBinance := 1052,
             totalFees := 6444/125, netProfit := 56/125, pair := "GALA/GUSDC" },
    tradeAmount := 1000, direction := "GalaSwap->Binance" }

/-- Environment where the GALA/GWETH check succeeds: the quote returns 1
GWETH at tier 3000, ETH trades at 2000 USDT and GALA at 1 USDT. -/
def envResetW : TickEnv :=
  { nowMs := 60000, nowMs2 := 5, hasDeps := true, galaBalance := some 1000,
    getQuote := fun _ _ _ => .ok { amountOut := 1, feeTier := some 3000 },
    getPrice := fun s => if s == "ETHUSDT" then some 2000
      else if s == "GALAUSDT" then some 1 else none,
    usdtBalance := .ok none, requestSwapOutcome := .ok (),
    executeTradeOutcome := fun _ => .ok () }

/-- The opportunity the GALA/GWETH check computes in envResetW at size
1000. -/
def oppResetW : Opportunity :=
  { receivingTokenAmount := 1, galaBuyableOnBinance := 2000,
    totalFees := 605/2, netProfit := 1395/2, pair := "GALA/GWETH" }

/-! Shared lemmas. -/

/-- The forward evaluator always performs exactly one venue-A quote
call, for the requested pair and amount. -/
lemma checkArb_fst (env : TickEnv) (a : ℚ) (g r bs qc : String) :
    (checkArbitrageOpportunity env a g r bs qc).1 = [Event.quoteCall g r a] := by
  unfold checkArbitrageOpportunity
  dsimp only
  repeat' split
  all_goals rfl

/-- The reverse evaluator performs no venue-A quote call (when the price
is missing) or exactly the GALA to GUSDC one. -/
lemma checkReverse_fst (env : TickEnv) (a n : ℚ) :
    (checkReverseArbitrageOpportunity env a n).1 = [] ∨
    (checkReverseArbitrageOpportunity env a n).1 = [Event.quoteCall "GALA" "GUSDC" a] := by
  unfold checkReverseArbitrageOpportunity
  dsimp only
  repeat' split
  all_goals first
  | exact Or.inl rfl
  | exact Or.inr rfl

/-- Every event of the alternative-pair fallback is a quote call for one
of the listed pairs. -/
lemma tryAlt_fst_mem (env : TickEnv) (s : ℚ) :
    ∀ (ps : List AltPair) (e : Event), e ∈ (tryAlternativePairs env s ps).1 →
      ∃ p ∈ ps, e = Event.quoteCall p.galaToken p.receivingToken s := by
  intro ps
  induction ps with
  | nil => intro e he; simp [tryAlternativePairs] at he
  | cons p rest ih =>
    intro e he
    simp only [tryAlternativePairs] at he
    split at he
    · rw [checkArb_fst] at he
      simp only [List.mem_singleton] at he
      exact ⟨p, List.mem_cons_self p rest, he⟩
    · rw [checkArb_fst] at he
      rcases List.mem_append.mp he with h1 | h2
      · simp only [List.mem_singleton] at h1
        exact ⟨p, List.mem_cons_self p rest, h1⟩
      · obtain ⟨p2, hp2, he2⟩ := ih e h2
        exact ⟨p2, List.mem_cons_of_mem p hp2, he2⟩

/-- Case analysis of the best-so-far update: either the best is kept
(because the candidate is non-positive or does not beat it), or the
candidate is installed (positive and strictly better than any held
best). -/
lemma updateBestOpp_eq_or (best : Option BestOpp) (o : Opportunity)
    (s : ℚ) (d : String) :
    (updateBestOpp best o s d = best ∧
      (o.netProfit ≤ 0 ∨ ∃ a, best = some a ∧ o.netProfit ≤ a.opp.netProfit)) ∨
    (updateBestOpp best o s d = some { opp := o, tradeAmount := s, direction := d } ∧
      0 < o.netProfit ∧ ∀ a, best = some a → a.opp.netProfit < o.netProfit) := by
  unfold updateBestOpp
  by_cases h : 0 < o.netProfit
  · rw [if_pos h]
    cases best with
    | none =>
      right
      exact ⟨rfl, h, by intro a ha; cases ha⟩
    | some a =>
      dsimp only
      by_cases h2 : a.opp.netProfit < o.netProfit
      · right
        refine ⟨by rw [if_pos h2], h, ?_⟩
        intro a2 ha2
        cases ha2
        exact h2
      · left
        exact ⟨by rw [if_neg h2], Or.inr ⟨a, rfl, le_of_not_lt h2⟩⟩
  · left
    exact ⟨if_neg h, Or.inl (le_of_not_lt h)⟩

/-- Every return site of doTick yields the empty strategy result. -/
lemma doTick_snd_empty (env : TickEnv) (al : Bool) (st : StratState) :
    (doTick env al st).2.2 = emptyTickResult := by
  unfold doTick
  repeat' split
  all_goals rfl

/-- Every event of a tick comes from its search or from its decision
phase, run on the search result for the actual balance. -/
lemma doTick_trace_sub (env : TickEnv) (al : Bool) (st : StratState) :
    ∀ e ∈ (doTick env al st).2.1,
      ∃ bal, env.galaBalance = some bal ∧
        (e ∈ (runSearch env st.gwethFailureCount st.gwethLastFailureTime bal).1 ∨
         e ∈ decisionPhase env al (searchState env st.gwethFailureCount st.gwethLastFailureTime bal)) := by
  intro e he
  unfold doTick at he
  split at he
  · simp at he
  · split at he
    · simp at he
    · split at he
      · simp at he
      case _ bal hbal =>
        split at he
        · simp at he
        · refine ⟨bal, hbal, ?_⟩
          simpa [searchState] using List.mem_append.mp he

/-- Transfer of BestWitnessed along equal candidate list and best. -/
lemma bestWitnessed_of_eq (ls1 ls2 : LoopState)
    (ha : ls2.allOpportunities = ls1.allOpportunities)
    (hb : ls2.bestOpportunity = ls1.bestOpportunity)
    (h : BestWitnessed ls1) : BestWitnessed ls2 := by
  intro b hbb
  rw [hb] at hbb
  obtain ⟨hpos, c, hc, hceq⟩ := h b hbb
  exact ⟨hpos, c, ha ▸ hc, hceq⟩

/-- recordOpportunity preserves BestWitnessed: the recorded candidate
itself witnesses a newly installed best. -/
lemma bestWitnessed_record (ls : LoopState) (o : Opportunity) (s : ℚ)
    (d : String) (h : BestWitnessed ls) :
    BestWitnessed (recordOpportunity ls o s d) := by
  intro b hb
  unfold recordOpportunity at hb ⊢
  dsimp only at hb ⊢
  rcases updateBestOpp_eq_or ls.bestOpportunity o s d with ⟨heq, _⟩ | ⟨heq, hpos, _⟩
  · rw [heq] at hb
    obtain ⟨hpos, c, hc, hceq⟩ := h b hb
    exact ⟨hpos, c, List.mem_append_left _ hc, hceq⟩
  · rw [heq] at hb
    injection hb with hb
    subst hb
    refine ⟨hpos, ?_⟩
    exact ⟨{ tradeSize := s, netProfit := o.netProfit, pair := o.pair, direction := d },
      List.mem_append_right _ (List.mem_singleton.mpr rfl), rfl⟩

/-- The GWETH check step only touches the breaker counters. -/
lemma gwethCheckStep_lists (env : TickEnv) (skip : Bool) (ls : LoopState) (s : ℚ) :
    (gwethCheckStep env skip ls s).2.2.allOpportunities = ls.allOpportunities ∧
    (gwethCheckStep env skip ls s).2.2.bestOpportunity = ls.bestOpportunity := by
  unfold gwethCheckStep
  repeat' split
  all_goals exact ⟨rfl, rfl⟩

/-- The forward step preserves BestWitnessed. -/
lemma forwardSizeStep_bestWitnessed (env : TickEnv) (skip : Bool)
    (ls : LoopState) (s : ℚ) (h : BestWitnessed ls) :
    BestWitnessed (forwardSizeStep env skip ls s).2 := by
  have hg := gwethCheckStep_lists env skip ls s
  have hw : BestWitnessed (gwethCheckStep env skip ls s).2.2 :=
    bestWitnessed_of_eq ls _ hg.1 hg.2 h
  unfold forwardSizeStep
  rcases hgc : gwethCheckStep env skip ls s with ⟨evs1, oppOpt, ls1⟩
  rw [hgc] at hw
  cases oppOpt with
  | some o =>
    dsimp only
    exact bestWitnessed_record ls1 o s _ hw
  | none =>
    dsimp only
    rcases tryAlternativePairs env s ALTERNATIVE_PAIRS with ⟨evs2, altOpt⟩
    cases altOpt with
    | none => exact hw
    | some o => exact bestWitnessed_record ls1 o s _ hw

/-- The forward loop preserves BestWitnessed. -/
lemma forwardLoop_bestWitnessed (env : TickEnv) (skip : Bool) :
    ∀ (sizes : List ℚ) (ls : LoopState), BestWitnessed ls →
      BestWitnessed (forwardLoop env skip sizes ls).2 := by
  intro sizes
  induction sizes with
  | nil => intro ls h; exact h
  | cons s rest ih =>
    intro ls h
    exact ih _ (forwardSizeStep_bestWitnessed env skip ls s h)

/-- The reverse step preserves BestWitnessed. -/
lemma reverseSizeStep_bestWitnessed (env : TickEnv) (u : ℚ) (ls : LoopState)
    (s : ℚ) (h : BestWitnessed ls) :
    BestWitnessed (reverseSizeStep env u ls s).2 := by
  unfold reverseSizeStep
  repeat' split
  all_goals try exact h
  all_goals dsimp only
  all_goals repeat' split
  all_goals first
  | exact h
  | exact bestWitnessed_record _ _ _ _ h

/-- The reverse loop preserves BestWitnessed. -/
lemma reverseLoop_bestWitnessed (env : TickEnv) (u : ℚ) :
    ∀ (sizes : List ℚ) (ls : LoopState), BestWitnessed ls →
      BestWitnessed (reverseLoop env u sizes ls).2 := by
  intro sizes
  induction sizes with
  | nil => intro ls h; exact h
  | cons s rest ih =>
    intro ls h
    exact ih _ (reverseSizeStep_bestWitnessed env u ls s h)

/-- The reverse block preserves BestWitnessed. -/
lemma reverseBlock_bestWitnessed (env : TickEnv) (sizes : List ℚ)
    (ls : LoopState) (h : BestWitnessed ls) :
    BestWitnessed (reverseBlock env sizes ls).2 := by
  unfold reverseBlock
  repeat' split
  all_goals try exact h
  all_goals dsimp only
  all_goals repeat' split
  all_goals first
  | exact h
  | exact reverseLoop_bestWitnessed env _ sizes ls h

/-- The search always ends with a witnessed best. -/
lemma searchState_bestWitnessed (env : TickEnv) (fc : ℕ) (lt : ℤ) (bal : ℚ) :
    BestWitnessed (searchState env fc lt bal) := by
  unfold searchState runSearch
  dsimp only
  apply reverseBlock_bestWitnessed
  apply forwardLoop_bestWitnessed
  intro b hb
  exact Option.noConfusion hb

/-- When the gate is closed and a best is held, the decision phase only
logs the non-executed best (netProfit, threshold and trade amount, but
no pair). -/
lemma decisionPhase_some_noexec (env : TickEnv) (al : Bool) (ls : LoopState)
    (b : BestOpp) (hb : ls.bestOpportunity = some b)
    (h : shouldExecuteDecision al ls.bestOpportunity = false) :
    decisionPhase env al ls =
      [Event.logNotExecuting b.opp.netProfit MIN_PROFIT_GALA b.tradeAmount al] := by
  unfold decisionPhase
  rw [hb] at h ⊢
  dsimp only
  rw [h]
  rfl

/-- With no best and no candidates, the decision phase logs that nothing
was found. -/
lemma decisionPhase_none_nil (env : TickEnv) (al : Bool) (ls : LoopState)
    (hb : ls.bestOpportunity = none) (ha : ls.allOpportunities = []) :
    decisionPhase env al ls = [Event.logNoOpportunities] := by
  unfold decisionPhase
  rw [hb]
  dsimp only
  rw [ha]

/-- With no best but candidates present, the decision phase logs the
summary of the first-found maximum-netProfit candidate, with its trade
size, netProfit, pair and direction. -/
lemma decisionPhase_none_cons (env : TickEnv) (al : Bool) (ls : LoopState)
    (c : Candidate) (rest : List Candidate)
    (hb : ls.bestOpportunity = none) (ha : ls.allOpportunities = c :: rest) :
    decisionPhase env al ls =
      [Event.logNoProfitSummary (bestUnprofitableOf c rest).tradeSize
        (bestUnprofitableOf c rest).netProfit (bestUnprofitableOf c rest).pair
        (bestUnprofitableOf c rest).direction] := by
  unfold decisionPhase
  rw [hb]
  dsimp only
  rw [ha]

/-- When the gate passes and the executor throws, the decision phase is
the pre-execution alert, the executor events, and the tick-boundary
error log. -/
lemma decisionPhase_exec_error (env : TickEnv) (al : Bool) (ls : LoopState)
    (b : BestOpp) (hb : ls.bestOpportunity = some b)
    (hex : shouldExecuteDecision al (some b) = true)
    (herr : (executeArbitrage env b.opp b.tradeAmount b.direction).2 = .error ()) :
    decisionPhase env al ls =
      Event.alert (if decide (b.opp.netProfit ≤ 0) then .lossTradeAlert else .opportunityAlert) ::
        ((executeArbitrage env b.opp b.tradeAmount b.direction).1 ++ [Event.logTickError]) := by
  unfold decisionPhase
  rw [hb]
  dsimp only
  rw [hex]
  simp [herr]

/-- Events of the GWETH check step: none when skipped, exactly the
GALA/GWETH quote call otherwise. -/
lemma gwethCheckStep_fst (env : TickEnv) (skip : Bool) (ls : LoopState) (s : ℚ) :
    (gwethCheckStep env skip ls s).1 = [] ∧ skip = true ∨
    (gwethCheckStep env skip ls s).1 = [Event.quoteCall "GALA" "GWETH" s] ∧ skip = false := by
  cases skip with
  | true => exact Or.inl ⟨rfl, rfl⟩
  | false =>
    right
    refine ⟨?_, rfl⟩
    unfold gwethCheckStep
    rw [if_neg (by simp)]
    have h2 := checkArb_fst env s "GALA" "GWETH" "GALAETH" "ETHUSDT"
    split
    next evs heq => rw [heq] at h2; exact h2
    next evs o heq => rw [heq] at h2; exact h2

/-- Every event of a forward step is the GALA/GWETH quote call (only
when the breaker is closed) or a quote call for an alternative pair. -/
lemma forwardSizeStep_fst_mem (env : TickEnv) (skip : Bool) (ls : LoopState)
    (s : ℚ) : ∀ e ∈ (forwardSizeStep env skip ls s).1,
    (e = Event.quoteCall "GALA" "GWETH" s ∧ skip = false) ∨
    ∃ p ∈ ALTERNATIVE_PAIRS, e = Event.quoteCall p.galaToken p.receivingToken s := by
  intro e he
  unfold forwardSizeStep at he
  rcases hgc : gwethCheckStep env skip ls s with ⟨evs1, oppOpt, ls1⟩
  rw [hgc] at he
  rcases gwethCheckStep_fst env skip ls s with ⟨h1, hskip⟩ | ⟨h1, hskip⟩
  all_goals rw [hgc] at h1
  · -- skipped: evs1 = []
    subst h1
    cases oppOpt with
    | some o => simp at he
    | none =>
      dsimp only at he
      rcases halt : tryAlternativePairs env s ALTERNATIVE_PAIRS with ⟨evs2, altOpt⟩
      rw [halt] at he
      have hsub : e ∈ (tryAlternativePairs env s ALTERNATIVE_PAIRS).1 := by
        rw [halt]
        cases altOpt <;> simpa using he
      exact Or.inr (tryAlt_fst_mem env s ALTERNATIVE_PAIRS e hsub)
  · -- not skipped: evs1 = [gweth quote call]
    subst h1
    cases oppOpt with
    | some o =>
      dsimp only at he
      simp only [List.mem_singleton] at he
      exact Or.inl ⟨he, hskip⟩
    | none =>
      dsimp only at he
      rcases halt : tryAlternativePairs env s ALTERNATIVE_PAIRS with ⟨evs2, altOpt⟩
      rw [halt] at he
      have he2 : e ∈ [Event.quoteCall "GALA" "GWETH" s] ++ evs2 := by
        cases altOpt <;> simpa using he
      rcases List.mem_append.mp he2 with h3 | h3
      · simp only [List.mem_singleton] at h3
        exact Or.inl ⟨h3, hskip⟩
      · have hsub : e ∈ (tryAlternativePairs env s ALTERNATIVE_PAIRS).1 := by
          rw [halt]; exact h3
        exact Or.inr (tryAlt_fst_mem env s ALTERNATIVE_PAIRS e hsub)

/-- Every event of the forward loop is a GALA/GWETH quote call (only
when the breaker is closed) or an alternative-pair quote call. -/
lemma forwardLoop_fst_mem (env : TickEnv) (skip : Bool) :
    ∀ (sizes : List ℚ) (ls : LoopState) (e : Event),
      e ∈ (forwardLoop env skip sizes ls).1 →
      ∃ s, (e = Event.quoteCall "GALA" "GWETH" s ∧ skip = false) ∨
           ∃ p ∈ ALTERNATIVE_PAIRS, e = Event.quoteCall p.galaToken p.receivingToken s := by
  intro sizes
  induction sizes with
  | nil => intro ls e he; simp [forwardLoop] at he
  | cons s rest ih =>
    intro ls e he
    simp only [forwardLoop] at he
    rcases List.mem_append.mp he with h1 | h2
    · exact ⟨s, forwardSizeStep_fst_mem env skip ls s e h1⟩
    · exact ih _ e h2

/-- Every event of a reverse step is the GALA to GUSDC quote call. -/
lemma reverseSizeStep_fst_mem (env : TickEnv) (u : ℚ) (ls : LoopState) (s : ℚ) :
    ∀ e ∈ (reverseSizeStep env u ls s).1, ∃ a, e = Event.quoteCall "GALA" "GUSDC" a := by
  intro e he
  unfold reverseSizeStep at he
  split at he
  · simp at he
  next galaPriceUsdt heqPrice =>
    dsimp only at he
    split at he
    · simp at he
    · have h2 := checkReverse_fst env s (s * galaPriceUsdt)
      split at he
      next evs heq =>
        rw [heq] at h2
        rcases h2 with h2 | h2 <;> simp only at h2 <;> subst h2
        · simp at he
        · simp only [List.mem_singleton] at he
          exact ⟨s, he⟩
      next evs o heq =>
        rw [heq] at h2
        rcases h2 with h2 | h2 <;> simp only at h2 <;> subst h2
        · simp at he
        · simp only [List.mem_singleton] at he
          exact ⟨s, he⟩

/-- Every event of the reverse loop is a GALA to GUSDC quote call. -/
lemma reverseLoop_fst_mem (env : TickEnv) (u : ℚ) :
    ∀ (sizes : List ℚ) (ls : LoopState) (e : Event),
      e ∈ (reverseLoop env u sizes ls).1 → ∃ a, e = Event.quoteCall "GALA" "GUSDC" a := by
  intro sizes
  induction sizes with
  | nil => intro ls e he; simp [reverseLoop] at he
  | cons s rest ih =>
    intro ls e he
    simp only [reverseLoop] at he
    rcases List.mem_append.mp he with h1 | h2
    · exact reverseSizeStep_fst_mem env u ls s e h1
    · exact ih _ e h2

/-- Every event of the reverse block is a GALA to GUSDC quote call. -/
lemma reverseBlock_fst_mem (env : TickEnv) (sizes : List ℚ) (ls : LoopState) :
    ∀ e ∈ (reverseBlock env sizes ls).1, ∃ a, e = Event.quoteCall "GALA" "GUSDC" a := by
  intro e he
  unfold reverseBlock at he
  split at he
  · simp at he
  · dsimp only at he
    split at he
    · exact reverseLoop_fst_mem env _ sizes ls e he
    · simp at he

/-- Every event of the search is a venue-A quote call, and GALA/GWETH is
quoted only when the breaker flag is down. -/
lemma runSearch_fst_mem (env : TickEnv) (fc : ℕ) (lt : ℤ) (bal : ℚ) :
    ∀ e ∈ (runSearch env fc lt bal).1,
      (∃ a, e = Event.quoteCall "GALA" "GWETH" a ∧ shouldSkipGwethFlag env fc lt = false) ∨
      (∃ p ∈ ALTERNATIVE_PAIRS, ∃ a, e = Event.quoteCall p.galaToken p.receivingToken a) ∨
      (∃ a, e = Event.quoteCall "GALA" "GUSDC" a) := by
  intro e he
  unfold runSearch at he
  dsimp only at he
  rcases List.mem_append.mp he with h1 | h2
  · obtain ⟨s, hcase⟩ := forwardLoop_fst_mem env _ (validSizes bal) _ e h1
    rcases hcase with ⟨heq, hskip⟩ | ⟨p, hp, heq⟩
    · exact Or.inl ⟨s, heq, hskip⟩
    · exact Or.inr (Or.inl ⟨p, hp, s, heq⟩)
  · obtain ⟨a, ha⟩ := reverseBlock_fst_mem env (validSizes bal) _ e h2
    exact Or.inr (Or.inr ⟨a, ha⟩)

/-- When the breaker is open at tick start, the search performs no
GALA/GWETH quote call and the first valid size is quoted once the retry
interval has elapsed. -/
lemma runSearch_calls_gweth (env : TickEnv) (fc : ℕ) (lt : ℤ) (bal : ℚ)
    (hskip : shouldSkipGwethFlag env fc lt = false)
    (hbal : MIN_GALA_AMOUNT ≤ bal) :
    Event.quoteCall "GALA" "GWETH" 1000 ∈ (runSearch env fc lt bal).1 := by
  unfold runSearch
  dsimp only
  rw [hskip]
  have hv : validSizes bal = 1000 :: List.filter
      (fun s => decide (s ≤ bal) && decide (MIN_GALA_AMOUNT ≤ s)) [2000, 3000, 4000, 5000] := by
    unfold validSizes TRADE_SIZE_OPTIONS
    rw [List.filter_cons_of_pos]
    simp only [Bool.and_eq_true, decide_eq_true_eq]
    constructor
    · calc (1000 : ℚ) = MIN_GALA_AMOUNT := by norm_num [MIN_GALA_AMOUNT]
        _ ≤ bal := hbal
    · norm_num [MIN_GALA_AMOUNT]
  rw [hv]
  apply List.mem_append_left
  simp only [forwardLoop]
  apply List.mem_append_left
  unfold forwardSizeStep
  rcases hgc : gwethCheckStep env false _ 1000 with ⟨evs1, oppOpt, ls1⟩
  rcases gwethCheckStep_fst env false _ 1000 with ⟨_, hcontra⟩ | ⟨h1, _⟩
  · exact absurd hcontra (by simp)
  · rw [hgc] at h1
    subst h1
    cases oppOpt with
    | some o => exact List.mem_singleton.mpr rfl
    | none =>
      dsimp only
      rcases tryAlternativePairs env 1000 ALTERNATIVE_PAIRS with ⟨evs2, altOpt⟩
      cases altOpt <;> exact List.mem_append_left _ (List.mem_singleton.mpr rfl)

/-- Full specification of the best-so-far fold: starting from a
positively-profitable accumulator, a returned best is either the
untouched accumulator dominating every candidate, or an installed
candidate that is positively profitable, dominates every candidate, is
the first to reach its profit, and strictly beats the accumulator. -/
lemma selectBestFrom_spec (cands : List (Opportunity × ℚ × String)) :
    ∀ (acc : Option BestOpp) (b : BestOpp),
      (∀ a, acc = some a → 0 < a.opp.netProfit) →
      selectBestFrom acc cands = some b →
      (acc = some b ∧ ∀ c ∈ cands, c.1.netProfit ≤ b.opp.netProfit) ∨
      (0 < b.opp.netProfit ∧ (∀ c ∈ cands, c.1.netProfit ≤ b.opp.netProfit) ∧
        (∃ pre post, cands = pre ++ ((b.opp, b.tradeAmount, b.direction) :: post) ∧
          ∀ c ∈ pre, c.1.netProfit < b.opp.netProfit) ∧
        (∀ a, acc = some a → a.opp.netProfit < b.opp.netProfit)) := by
  induction cands with
  | nil =>
    intro acc b hacc h
    left
    constructor
    · simpa [selectBestFrom] using h
    · simp
  | cons c cs ih =>
    intro acc b hacc h
    have hstep : selectBestFrom acc (c :: cs) =
        selectBestFrom (updateBestOpp acc c.1 c.2.1 c.2.2) cs := rfl
    rw [hstep] at h
    rcases updateBestOpp_eq_or acc c.1 c.2.1 c.2.2 with ⟨heq, hkeep⟩ | ⟨heq, hpos, hbeat⟩
    · -- candidate not installed
      rw [heq] at h
      rcases ih acc b hacc h with ⟨hacc2, hle⟩ | ⟨hpos2, hle, ⟨pre, post, hdec, hpre⟩, hstrict⟩
      · left
        refine ⟨hacc2, ?_⟩
        intro c2 hc2
        rcases List.mem_cons.mp hc2 with rfl | hc2
        · have hbpos : 0 < b.opp.netProfit := hacc b hacc2
          rcases hkeep with hk | ⟨a, ha, hk⟩
          · exact le_trans hk (le_of_lt hbpos)
          · rw [hacc2] at ha
            injection ha with ha
            subst ha
            exact hk
        · exact hle c2 hc2
      · right
        have hchead : c.1.netProfit < b.opp.netProfit := by
          rcases hkeep with hk | ⟨a, ha, hk⟩
          · exact lt_of_le_of_lt hk hpos2
          · exact lt_of_le_of_lt hk (hstrict a ha)
        refine ⟨hpos2, ?_, ⟨c :: pre, post, by rw [hdec]; rfl, ?_⟩, hstrict⟩
        · intro c2 hc2
          rcases List.mem_cons.mp hc2 with rfl | hc2
          · exact le_of_lt hchead
          · exact hle c2 hc2
        · intro c2 hc2
          rcases List.mem_cons.mp hc2 with rfl | hc2
          · exact hchead
          · exact hpre c2 hc2
    · -- candidate installed
      rw [heq] at h
      have hacc2 : ∀ a, (some { opp := c.1, tradeAmount := c.2.1, direction := c.2.2 } :
          Option BestOpp) = some a → 0 < a.opp.netProfit := by
        intro a ha
        injection ha with ha
        subst ha
        exact hpos
      rcases ih _ b hacc2 h with ⟨hacc3, hle⟩ | ⟨hpos2, hle, ⟨pre, post, hdec, hpre⟩, hstrict⟩
      · -- the candidate survives the tail
        injection hacc3 with hb
        right
        refine ⟨?_, ?_, ⟨[], cs, ?_, by simp⟩, ?_⟩
        · rw [← hb]; exact hpos
        · intro c2 hc2
          rcases List.mem_cons.mp hc2 with rfl | hc2
          · rw [← hb]
          · exact hle c2 hc2
        · rw [← hb]
          simp
        · intro a ha
          rw [← hb]
          exact hbeat a ha
      · -- a later candidate wins
        have hchead : c.1.netProfit < b.opp.netProfit := by
          have h3 := hstrict { opp := c.1, tradeAmount := c.2.1, direction := c.2.2 } rfl
          exact h3
        right
        refine ⟨hpos2, ?_, ⟨c :: pre, post, by rw [hdec]; rfl, ?_⟩, ?_⟩
        · intro c2 hc2
          rcases List.mem_cons.mp hc2 with rfl | hc2
          · exact le_of_lt hchead
          · exact hle c2 hc2
        · intro c2 hc2
          rcases List.mem_cons.mp hc2 with rfl | hc2
          · exact hchead
          · exact hpre c2 hc2
        · intro a ha
          exact lt_trans (hbeat a ha) hchead

/-- The summary reduce picks a member of the list. -/
lemma bestUnprofitableOf_mem :
    ∀ (rest : List Candidate) (c : Candidate), bestUnprofitableOf c rest ∈ c :: rest := by
  intro rest
  induction rest with
  | nil => intro c; simp [bestUnprofitableOf]
  | cons x rest ih =>
    intro c
    have hfold : bestUnprofitableOf c (x :: rest) =
        bestUnprofitableOf (if c.netProfit < x.netProfit then x else c) rest := rfl
    rw [hfold]
    by_cases hcx : c.netProfit < x.netProfit
    · rw [if_pos hcx]
      rcases List.mem_cons.mp (ih x) with hm | hm
      · rw [hm]; exact List.mem_cons_of_mem c (List.mem_cons_self x rest)
      · exact List.mem_cons_of_mem c (List.mem_cons_of_mem x hm)
    · rw [if_neg hcx]
      rcases List.mem_cons.mp (ih c) with hm | hm
      · rw [hm]; exact List.mem_cons_self c (x :: rest)
      · exact List.mem_cons_of_mem c (List.mem_cons_of_mem x hm)

/-- The summary reduce dominates every entry of the list. -/
lemma bestUnprofitableOf_ge :
    ∀ (rest : List Candidate) (c : Candidate),
      ∀ d ∈ c :: rest, d.netProfit ≤ (bestUnprofitableOf c rest).netProfit := by
  intro rest
  induction rest with
  | nil =>
    intro c d hd
    rw [List.mem_singleton.mp hd]
    simp [bestUnprofitableOf]
  | cons x rest ih =>
    intro c d hd
    have hfold : bestUnprofitableOf c (x :: rest) =
        bestUnprofitableOf (if c.netProfit < x.netProfit then x else c) rest := rfl
    rw [hfold]
    have hc2c : c.netProfit ≤ (if c.netProfit < x.netProfit then x else c).netProfit := by
      by_cases hcx : c.netProfit < x.netProfit
      · rw [if_pos hcx]; exact le_of_lt hcx
      · rw [if_neg hcx]
    have hc2x : x.netProfit ≤ (if c.netProfit < x.netProfit then x else c).netProfit := by
      by_cases hcx : c.netProfit < x.netProfit
      · rw [if_pos hcx]
      · rw [if_neg hcx]; exact le_of_not_lt hcx
    have hhead := ih (if c.netProfit < x.netProfit then x else c) _
      (List.mem_cons_self _ rest)
    rcases List.mem_cons.mp hd with hdc | hd2
    · rw [hdc]; exact le_trans hc2c hhead
    · rcases List.mem_cons.mp hd2 with hdx | hd3
      · rw [hdx]; exact le_trans hc2x hhead
      · exact ih _ d (List.mem_cons_of_mem _ hd3)


/-- An event that is not a quote call is not a GWETH quote call. -/
lemma not_quote_not_gweth (e : Event) (h : e.isQuoteCall = false) :
    e.isGwethQuote = false := by
  cases e <;> first | rfl | exact absurd h (by simp [Event.isQuoteCall])

/-- The executor emits no venue-A quote call: only swap submissions and
venue-B trades. -/
lemma exec_fst_not_quote_all (env : TickEnv) (o : Opportunity) (g : ℚ) (d : String) :
    ((executeArbitrage env o g d).1.all fun e => !e.isQuoteCall) = true := by
  unfold executeArbitrage executeReverseArbitrage
  dsimp only
  repeat' (first | split | dsimp only)
  all_goals rfl

/-- Membership form of exec_fst_not_quote_all. -/
lemma exec_fst_not_quote (env : TickEnv) (o : Opportunity) (g : ℚ) (d : String) :
    ∀ e ∈ (executeArbitrage env o g d).1, e.isQuoteCall = false := by
  have h := exec_fst_not_quote_all env o g d
  rw [List.all_eq_true] at h
  intro e he
  simpa using h e he

/-- The decision phase emits no GWETH quote call. -/
lemma decision_fst_not_gweth (env : TickEnv) (al : Bool) (ls : LoopState) :
    ∀ e ∈ decisionPhase env al ls, e.isGwethQuote = false := by
  intro e he
  unfold decisionPhase at he
  split at he
  · split at he
    · dsimp only at he
      split at he
      · rcases List.mem_cons.mp he with rfl | he2
        · rfl
        · exact not_quote_not_gweth _ (exec_fst_not_quote env _ _ _ _ he2)
      · rcases List.mem_cons.mp he with rfl | he2
        · rfl
        · rcases List.mem_append.mp he2 with he3 | he3
          · exact not_quote_not_gweth _ (exec_fst_not_quote env _ _ _ _ he3)
          · rw [List.mem_singleton.mp he3]; rfl
    · rw [List.mem_singleton.mp he]; rfl
  · split at he
    · rw [List.mem_singleton.mp he]; rfl
    · rw [List.mem_singleton.mp he]; rfl

/-! Claim theorems. -/

/-- C2: for every opportunity the forward evaluator returns from a quote
that carried a (truthy) fee tier t, netProfit equals exactly
galaBuyableOnBinance minus the trade size minus totalFees, and totalFees
is the venue-A fee tradeSize times t divided by 10000 (the rate derived
from the tier the quote returned, not a constant), plus the venue-B fee
proportional to galaBuyableOnBinance, plus the fixed gas estimate. -/
theorem forward_netProfit_formula (env : TickEnv) (galaAmount : ℚ)
    (galaToken receivingToken bSym quoteCurrency : String) (q : Quote) (t : ℚ)
    (hq : env.getQuote (mkTokenKey galaToken) (mkTokenKey receivingToken) galaAmount =
      QuoteOutcome.ok q)
    (ht : q.feeTier = some t) (ht0 : t ≠ 0) (opp : Opportunity)
    (hopp : (checkArbitrageOpportunity env galaAmount galaToken receivingToken
      bSym quoteCurrency).2 = some opp) :
    opp.netProfit = opp.galaBuyableOnBinance - galaAmount - opp.totalFees ∧
    opp.totalFees = galaAmount * (t / 10000) +
      opp.galaBuyableOnBinance * BINANCE_MARKET_FEE_RATE + GAS_FEE_GALA := by
  unfold checkArbitrageOpportunity at hopp
  rw [hq] at hopp
  dsimp only at hopp
  have hft : feeTierOrDefault q = t := by
    unfold feeTierOrDefault
    rw [ht]
    exact if_neg ht0
  rw [hft] at hopp
  split at hopp
  · simp at hopp
  · split at hopp
    · simp at hopp
    · injection hopp with hopp
      subst hopp
      exact ⟨rfl, rfl⟩

/-- Witness for forward_netProfit_formula: the concrete run in envW2. -/
theorem forward_netProfit_formula_witness :
    oppW2.netProfit = oppW2.galaBuyableOnBinance - 1000 - oppW2.totalFees ∧
    oppW2.totalFees = 1000 * ((500 : ℚ) / 10000) +
      oppW2.galaBuyableOnBinance * BINANCE_MARKET_FEE_RATE + GAS_FEE_GALA :=
  forward_netProfit_formula envW2 1000 "GALA" "GUSDC" "GALAUSDT" "USDT" qW2 500
    rfl rfl (by norm_num) oppW2 (by
      norm_num [checkArbitrageOpportunity, envW2, mkTokenKey, feeTierOrDefault, oppW2,
        BINANCE_MARKET_FEE_RATE, GAS_FEE_GALA]
      rfl)

/-- C6: the strategy in src converts a fee tier to a rate by dividing by
10000 (so tier 10000 maps to the rate 1, that is 100 percent), exactly
as getFeeTierPercentage does, while the variant in part_011 divides by
1000000 (so tier 10000 maps to 1/100, the 1.00 percent the fee_tiers.ts
documentation states, which the variant matches on every documented
tier); for every tier the two conversions differ by a factor of exactly
100. -/
theorem feeTier_conversion_conflict :
    actualGalaSwapFeeRate_src 10000 = 1 ∧
    getFeeTierPercentage 10000 = 1 ∧
    actualGalaSwapFeeRate_part011 10000 = 1/100 ∧
    documentedFeeTierRate 500 = some (actualGalaSwapFeeRate_part011 500) ∧
    documentedFeeTierRate 3000 = some (actualGalaSwapFeeRate_part011 3000) ∧
    documentedFeeTierRate 10000 = some (actualGalaSwapFeeRate_part011 10000) ∧
    ∀ t : ℚ, actualGalaSwapFeeRate_src t = 100 * actualGalaSwapFeeRate_part011 t := by
  refine ⟨?_, ?_, ?_, ?_, ?_, ?_, ?_⟩
  case _ => norm_num [actualGalaSwapFeeRate_src]
  case _ => norm_num [getFeeTierPercentage]
  case _ => norm_num [actualGalaSwapFeeRate_part011]
  case _ => norm_num [documentedFeeTierRate, actualGalaSwapFeeRate_part011]
  case _ => norm_num [documentedFeeTierRate, actualGalaSwapFeeRate_part011]
  case _ => norm_num [documentedFeeTierRate, actualGalaSwapFeeRate_part011]
  case _ =>
    intro t
    unfold actualGalaSwapFeeRate_src actualGalaSwapFeeRate_part011
    ring

/-- C7 (amended): the reverse evaluator's reported netProfit equals
(usdtReceived minus usdtNeeded minus TWICE the venue-B buy fee minus the
venue-A fee minus the GALA-denominated gas constant) divided by the GALA
price: the venue-B buy fee is subtracted once inside totalCostUsdt and
again inside totalFees, and the gas constant and venue-A fee are mixed
into the USDT-denominated sum before the division converting to GALA. -/
theorem reverse_netProfit_formula (env : TickEnv) (galaAmount usdtNeeded p : ℚ)
    (q : Quote) (hp : env.getPrice "GALAUSDT" = some p)
    (hq : env.getQuote (mkTokenKey "GALA") (mkTokenKey "GUSDC") galaAmount =
      QuoteOutcome.ok q)
    (opp : Opportunity)
    (hopp : (checkReverseArbitrageOpportunity env galaAmount usdtNeeded).2 = some opp) :
    opp.netProfit = (q.amountOut - usdtNeeded
      - 2 * (galaAmount * p * BINANCE_MARKET_FEE_RATE)
      - galaAmount * (feeTierOrDefault q / 10000) - GAS_FEE_GALA) / p := by
  unfold checkReverseArbitrageOpportunity at hopp
  rw [hp] at hopp
  dsimp only at hopp
  rw [hq] at hopp
  dsimp only at hopp
  injection hopp with hopp
  subst hopp
  dsimp only
  congr 1
  ring

/-- Witness for reverse_netProfit_formula: the concrete run in envW7. -/
theorem reverse_netProfit_formula_witness :
    oppW7.netProfit = (qW7.amountOut - 1000
      - 2 * (1000 * 1 * BINANCE_MARKET_FEE_RATE)
      - 1000 * (feeTierOrDefault qW7 / 10000) - GAS_FEE_GALA) / 1 :=
  reverse_netProfit_formula envW7 1000 1000 1 qW7 rfl rfl oppW7 (by
    norm_num [checkReverseArbitrageOpportunity, envW7, envW2, mkTokenKey, feeTierOrDefault,
      oppW7, BINANCE_MARKET_FEE_RATE, GAS_FEE_GALA])

/-- C7 counterexample: in the concrete run in envW7 the code's reverse
netProfit (-405/2) differs from the value of the claim's formula in
which each fee is subtracted exactly once and the gas constant is
applied in GALA units (-403/2). -/
theorem reverse_netProfit_counterexample :
    (checkReverseArbitrageOpportunity envW7 1000 1000).2 = some oppW7 ∧
    oppW7.netProfit ≠ reverseNetProfitClaimed 1100 1000 1 300 1 := by
  constructor
  · norm_num [checkReverseArbitrageOpportunity, envW7, envW2, mkTokenKey, feeTierOrDefault,
      oppW7, BINANCE_MARKET_FEE_RATE, GAS_FEE_GALA]
  · norm_num [oppW7, reverseNetProfitClaimed, GAS_FEE_GALA]

/-- C9: whenever the driver's best-so-far fold selects an opportunity,
it has positive netProfit, no evaluated candidate exceeds its netProfit,
and it is the first candidate in evaluation order to reach that profit
(the best is replaced only by a strictly greater candidate, so
equal-profit candidates resolve to the first found, the smallest trade
size); on the specification's ladder of profits 2, 5, 3, 8, 1 the
candidate with profit 8 and size 4000 is selected. -/
theorem monotonic_best_selection :
    (∀ (cands : List (Opportunity × ℚ × String)) (b : BestOpp),
      selectBest cands = some b →
      0 < b.opp.netProfit ∧
      (∀ c ∈ cands, c.1.netProfit ≤ b.opp.netProfit) ∧
      ∃ pre post, cands = pre ++ ((b.opp, b.tradeAmount, b.direction) :: post) ∧
        ∀ c ∈ pre, c.1.netProfit < b.opp.netProfit) ∧
    selectBest profitLadderExample =
      some { opp := oppOfProfit 8, tradeAmount := 4000,
             direction := "GalaSwap->Binance" } := by
  constructor
  · intro cands b h
    rcases selectBestFrom_spec cands none b (fun a ha => Option.noConfusion ha) h with
      ⟨h1, _⟩ | ⟨h1, h2, h3, _⟩
    · exact Option.noConfusion h1
    · exact ⟨h1, h2, h3⟩
  · norm_num [selectBest, selectBestFrom, profitLadderExample, updateBestOpp, oppOfProfit]

/-- Witness for monotonic_best_selection: the general part applied to
the ladder example, whose hypothesis the example part discharges. -/
theorem monotonic_best_selection_witness :
    0 < (oppOfProfit 8).netProfit ∧
    (∀ c ∈ profitLadderExample, c.1.netProfit ≤ (oppOfProfit 8).netProfit) ∧
    ∃ pre post, profitLadderExample = pre ++
      ((oppOfProfit 8, (4000 : ℚ), "GalaSwap->Binance") :: post) ∧
      ∀ c ∈ pre, c.1.netProfit < (oppOfProfit 8).netProfit :=
  monotonic_best_selection.1 profitLadderExample
    { opp := oppOfProfit 8, tradeAmount := 4000, direction := "GalaSwap->Binance" }
    monotonic_best_selection.2

/-- C5: in any tick where loss trades are disabled, if every candidate
the search evaluates has netProfit below MIN_PROFIT_GALA, then the
executor is never invoked: the tick's event trace contains no venue-A
swap submission, no venue-B trade and no alert. -/
theorem no_loss_guard (env : TickEnv) (st : StratState)
    (h : ∀ bal, env.galaBalance = some bal →
      ∀ c ∈ (searchState env st.gwethFailureCount st.gwethLastFailureTime bal).allOpportunities,
        c.netProfit < MIN_PROFIT_GALA) :
    ∀ e ∈ (doTick env false st).2.1, e.isExecutionEffect = false := by
  intro e he
  obtain ⟨bal, hbal, hcase⟩ := doTick_trace_sub env false st e he
  rcases hcase with hsearch | hdec
  · rcases runSearch_fst_mem env _ _ bal e hsearch with ⟨a, heq, _⟩ | ⟨p, _, a, heq⟩ | ⟨a, heq⟩
    all_goals subst heq
    all_goals rfl
  · have hbw := searchState_bestWitnessed env st.gwethFailureCount st.gwethLastFailureTime bal
    have hgate : shouldExecuteDecision false
        (searchState env st.gwethFailureCount st.gwethLastFailureTime bal).bestOpportunity
        = false := by
      cases hbb : (searchState env st.gwethFailureCount st.gwethLastFailureTime bal).bestOpportunity with
      | none => rfl
      | some b =>
        obtain ⟨hpos, c, hc, hceq⟩ := hbw b hbb
        have hlt : b.opp.netProfit < MIN_PROFIT_GALA := by
          rw [← hceq]
          exact h bal hbal c hc
        have h1 : ¬ (MIN_PROFIT_GALA ≤ b.opp.netProfit) := not_le.mpr hlt
        simp [shouldExecuteDecision, h1]
    cases hbb : (searchState env st.gwethFailureCount st.gwethLastFailureTime bal).bestOpportunity with
    | some b =>
      rw [decisionPhase_some_noexec env false _ b hbb hgate] at hdec
      rw [List.mem_singleton.mp hdec]
      rfl
    | none =>
      cases hall : (searchState env st.gwethFailureCount st.gwethLastFailureTime bal).allOpportunities with
      | nil =>
        rw [decisionPhase_none_nil env false _ hbb hall] at hdec
        rw [List.mem_singleton.mp hdec]
        rfl
      | cons c rest =>
        rw [decisionPhase_none_cons env false _ c rest hbb hall] at hdec
        rw [List.mem_singleton.mp hdec]
        rfl

/-- Evaluation of the near-miss cycle: its single candidate and its
selected best. -/
lemma envC3x_search_eval :
    (searchState envC3x 0 0 1000).allOpportunities =
      [{ tradeSize := 1000, netProfit := 56/125, pair := "GALA/GUSDC",
         direction := "GalaSwap->Binance" }] ∧
    (searchState envC3x 0 0 1000).bestOpportunity = some bestC3x := by
  constructor
  all_goals
    simp only [searchState, runSearch, forwardLoop, forwardSizeStep, gwethCheckStep,
      tryAlternativePairs, checkArbitrageOpportunity, recordOpportunity, updateBestOpp,
      reverseBlock, reverseLoop, reverseSizeStep, validSizes, shouldSkipGwethFlag,
      feeTierOrDefault, envC3x, bestC3x, mkTokenKey, TRADE_SIZE_OPTIONS, MIN_GALA_AMOUNT,
      GWETH_MAX_FAILURES, GWETH_RETRY_INTERVAL, ALTERNATIVE_PAIRS, BINANCE_MARKET_FEE_RATE,
      GAS_FEE_GALA, String.reduceEq, String.reduceBEq, List.filter, String.reduceAppend]
  all_goals norm_num

/-- Witness for no_loss_guard: in envC3x the only candidate has
netProfit 56/125, below the threshold, and the tick's trace indeed
contains no execution effect. -/
theorem no_loss_guard_witness :
    ((doTick envC3x false stFresh).2.1.all fun e => !e.isExecutionEffect) = true := by
  rw [List.all_eq_true]
  intro e he
  have hh : ∀ bal, envC3x.galaBalance = some bal →
      ∀ c ∈ (searchState envC3x stFresh.gwethFailureCount
        stFresh.gwethLastFailureTime bal).allOpportunities,
        c.netProfit < MIN_PROFIT_GALA := by
    intro bal hbal
    have hb : (1000 : ℚ) = bal := by injection hbal
    subst hb
    intro c hc
    rw [show stFresh.gwethFailureCount = 0 from rfl, show stFresh.gwethLastFailureTime = 0 from rfl,
      envC3x_search_eval.1] at hc
    rw [List.mem_singleton.mp hc]
    norm_num [MIN_PROFIT_GALA]
  have h2 := no_loss_guard envC3x stFresh hh e he
  simp [h2]

/-- C3 (amended): in every search cycle, when no evaluated candidate has
positive netProfit the selection is empty, nothing is executed (the
decision phase is a single log event), and the warn summary names the
maximum-netProfit candidate together with its trade size and pair; when
the selected best is positive but below MIN_PROFIT_GALA, the selection
is NOT null, nothing is executed, and the info log reports its netProfit
and trade size but not its pair. -/
theorem near_miss_diagnostics (env : TickEnv) (al : Bool) (fc : ℕ) (lt : ℤ) (bal : ℚ) :
    ((∀ c ∈ (searchState env fc lt bal).allOpportunities, c.netProfit ≤ 0) →
      (searchState env fc lt bal).bestOpportunity = none ∧
      ∀ c rest, (searchState env fc lt bal).allOpportunities = c :: rest →
        decisionPhase env al (searchState env fc lt bal) =
          [Event.logNoProfitSummary (bestUnprofitableOf c rest).tradeSize
            (bestUnprofitableOf c rest).netProfit (bestUnprofitableOf c rest).pair
            (bestUnprofitableOf c rest).direction] ∧
        bestUnprofitableOf c rest ∈ (searchState env fc lt bal).allOpportunities ∧
        ∀ d ∈ (searchState env fc lt bal).allOpportunities,
          d.netProfit ≤ (bestUnprofitableOf c rest).netProfit) ∧
    (∀ b, (searchState env fc lt bal).bestOpportunity = some b →
      b.opp.netProfit < MIN_PROFIT_GALA →
      decisionPhase env al (searchState env fc lt bal) =
        [Event.logNotExecuting b.opp.netProfit MIN_PROFIT_GALA b.tradeAmount al]) := by
  have hbw := searchState_bestWitnessed env fc lt bal
  constructor
  · intro hall
    have hnone : (searchState env fc lt bal).bestOpportunity = none := by
      cases hbb : (searchState env fc lt bal).bestOpportunity with
      | none => rfl
      | some b =>
        obtain ⟨hpos, c, hc, hceq⟩ := hbw b hbb
        exfalso
        have h1 := hall c hc
        rw [hceq] at h1
        exact absurd h1 (not_le.mpr hpos)
    refine ⟨hnone, ?_⟩
    intro c rest hcr
    refine ⟨decisionPhase_none_cons env al _ c rest hnone hcr, ?_, ?_⟩
    · rw [hcr]; exact (bestUnprofitableOf_mem rest c)
    · rw [hcr]; exact (bestUnprofitableOf_ge rest c)
  · intro b hbb hlt
    obtain ⟨hpos, _⟩ := hbw b hbb
    have hgate : shouldExecuteDecision al
        (searchState env fc lt bal).bestOpportunity = false := by
      rw [hbb]
      have h1 : ¬ (MIN_PROFIT_GALA ≤ b.opp.netProfit) := not_le.mpr hlt
      have h2 : ¬ (b.opp.netProfit ≤ 0) := not_le.mpr hpos
      simp [shouldExecuteDecision, h1, h2]
    exact decisionPhase_some_noexec env al _ b hbb hgate

/-- Evaluation of the all-liquidity-failure cycle: no candidates. -/
lemma envC4x_allOpps_eval : (searchState envC4x 0 0 5000).allOpportunities = [] := by
  norm_num [searchState, runSearch, forwardLoop, forwardSizeStep, gwethCheckStep,
    tryAlternativePairs, checkArbitrageOpportunity, recordOpportunity, updateBestOpp,
    reverseBlock, reverseLoop, reverseSizeStep, validSizes, shouldSkipGwethFlag,
    feeTierOrDefault, envC4x, mkTokenKey, TRADE_SIZE_OPTIONS, MIN_GALA_AMOUNT,
    GWETH_MAX_FAILURES, GWETH_RETRY_INTERVAL, ALTERNATIVE_PAIRS]

/-- Witness for near_miss_diagnostics: the no-positive-candidate part at
envC4x and the below-threshold part at envC3x. -/
theorem near_miss_diagnostics_witness :
    (searchState envC4x 0 0 5000).bestOpportunity = none ∧
    decisionPhase envC3x true (searchState envC3x 0 0 1000) =
      [Event.logNotExecuting bestC3x.opp.netProfit MIN_PROFIT_GALA
        bestC3x.tradeAmount true] := by
  constructor
  · refine ((near_miss_diagnostics envC4x true 0 0 5000).1 ?_).1
    intro c hc
    rw [envC4x_allOpps_eval] at hc
    exact absurd hc (List.not_mem_nil c)
  · exact (near_miss_diagnostics envC3x true 0 0 1000).2 bestC3x
      envC3x_search_eval.2 (by norm_num [bestC3x, MIN_PROFIT_GALA])

/-- C3 counterexample: in envC3x every evaluated candidate has netProfit
below the threshold (the only candidate is at 56/125), yet the selected
opportunity is NOT null and the only diagnostic log emitted is the
logNotExecuting event, whose payload has the netProfit and trade size
but no pair; no summary log with a pair is emitted. -/
theorem near_miss_counterexample :
    (searchState envC3x 0 0 1000).allOpportunities =
      [{ tradeSize := 1000, netProfit := 56/125, pair := "GALA/GUSDC",
         direction := "GalaSwap->Binance" }] ∧
    (56 : ℚ)/125 < MIN_PROFIT_GALA ∧
    (searchState envC3x 0 0 1000).bestOpportunity = some bestC3x ∧
    decisionPhase envC3x true (searchState envC3x 0 0 1000) =
      [Event.logNotExecuting (56/125) MIN_PROFIT_GALA 1000 true] := by
  refine ⟨envC3x_search_eval.1, by norm_num [MIN_PROFIT_GALA], envC3x_search_eval.2, ?_⟩
  have h1 : ¬ (MIN_PROFIT_GALA ≤ bestC3x.opp.netProfit) := by
    norm_num [MIN_PROFIT_GALA, bestC3x]
  have h2 : ¬ (bestC3x.opp.netProfit ≤ (0 : ℚ)) := by
    norm_num [bestC3x]
  have hgate : shouldExecuteDecision true
      (searchState envC3x 0 0 1000).bestOpportunity = false := by
    rw [envC3x_search_eval.2]
    simp [shouldExecuteDecision, h1, h2]
  exact decisionPhase_some_noexec envC3x true _ bestC3x envC3x_search_eval.2 hgate

/-- A successful GALA/GWETH check resets the failure counter to zero. -/
lemma forwardSizeStep_reset (env : TickEnv) (ls : LoopState) (s : ℚ) (o : Opportunity)
    (hsome : (checkArbitrageOpportunity env s "GALA" "GWETH" "GALAETH" "ETHUSDT").2 = some o) :
    (forwardSizeStep env false ls s).2.gwethFailureCount = 0 := by
  have hg : gwethCheckStep env false ls s =
      ((checkArbitrageOpportunity env s "GALA" "GWETH" "GALAETH" "ETHUSDT").1, some o,
        { ls with gwethFailureCount := 0 }) := by
    unfold gwethCheckStep
    rw [if_neg (by simp)]
    rcases hc : checkArbitrageOpportunity env s "GALA" "GWETH" "GALAETH" "ETHUSDT" with ⟨evs, oOpt⟩
    rw [hc] at hsome
    dsimp only at hsome
    subst hsome
    rfl
  unfold forwardSizeStep
  rw [hg]
  rfl

/-- A failed GALA/GWETH check increments the failure counter and stamps
the failure time, whatever its reason, and the fallback does not touch
the counters. -/
lemma forwardSizeStep_increment (env : TickEnv) (ls : LoopState) (s : ℚ)
    (hnone : (checkArbitrageOpportunity env s "GALA" "GWETH" "GALAETH" "ETHUSDT").2 = none) :
    (forwardSizeStep env false ls s).2.gwethFailureCount = ls.gwethFailureCount + 1 ∧
    (forwardSizeStep env false ls s).2.gwethLastFailureTime = env.nowMs2 := by
  have hg : gwethCheckStep env false ls s =
      ((checkArbitrageOpportunity env s "GALA" "GWETH" "GALAETH" "ETHUSDT").1, none,
        { ls with gwethFailureCount := ls.gwethFailureCount + 1,
                  gwethLastFailureTime := env.nowMs2 }) := by
    unfold gwethCheckStep
    rw [if_neg (by simp)]
    rcases hc : checkArbitrageOpportunity env s "GALA" "GWETH" "GALAETH" "ETHUSDT" with ⟨evs, oOpt⟩
    rw [hc] at hnone
    dsimp only at hnone
    subst hnone
    rfl
  unfold forwardSizeStep
  rw [hg]
  dsimp only
  rcases tryAlternativePairs env s ALTERNATIVE_PAIRS with ⟨evs2, altOpt⟩
  cases altOpt with
  | none => exact ⟨rfl, rfl⟩
  | some o => exact ⟨rfl, rfl⟩

/-- C4 (amended): the breaker skip decision is evaluated once per tick
from the failure count and last-failure time at tick start: a tick
beginning with at least GWETH_MAX_FAILURES failures within
GWETH_RETRY_INTERVAL of the last failure performs no GALA/GWETH quote
call at all; once the interval has elapsed the search quotes GALA/GWETH
again (the pair is never permanently disabled); and any successful
GALA/GWETH check resets the failure counter to zero immediately.
(Within a single tick, however, later trade sizes still call the
adapter after the third failure: see the counterexample.) -/
theorem circuit_breaker_behaviour :
    (∀ (env : TickEnv) (al : Bool) (st : StratState),
      GWETH_MAX_FAILURES ≤ st.gwethFailureCount →
      env.nowMs2 - st.gwethLastFailureTime < GWETH_RETRY_INTERVAL →
      ∀ e ∈ (doTick env al st).2.1, e.isGwethQuote = false) ∧
    (∀ (env : TickEnv) (fc : ℕ) (lt : ℤ) (bal : ℚ),
      GWETH_RETRY_INTERVAL ≤ env.nowMs2 - lt →
      MIN_GALA_AMOUNT ≤ bal →
      Event.quoteCall "GALA" "GWETH" 1000 ∈ (runSearch env fc lt bal).1) ∧
    (∀ (env : TickEnv) (ls : LoopState) (s : ℚ) (o : Opportunity),
      (checkArbitrageOpportunity env s "GALA" "GWETH" "GALAETH" "ETHUSDT").2 = some o →
      (forwardSizeStep env false ls s).2.gwethFailureCount = 0) := by
  refine ⟨?_, ?_, ?_⟩
  · intro env al st h1 h2 e he
    obtain ⟨bal, hbal, hcase⟩ := doTick_trace_sub env al st e he
    rcases hcase with hsearch | hdec
    · rcases runSearch_fst_mem env _ _ bal e hsearch with
        ⟨a, heq, hskip⟩ | ⟨p, hp, a, heq⟩ | ⟨a, heq⟩
      · exfalso
        have hflag : shouldSkipGwethFlag env st.gwethFailureCount
            st.gwethLastFailureTime = true := by
          unfold shouldSkipGwethFlag
          simp [h1, h2]
        rw [hflag] at hskip
        cases hskip
      · subst heq
        simp only [ALTERNATIVE_PAIRS, List.mem_cons, List.not_mem_nil, or_false] at hp
        rcases hp with rfl | rfl <;> simp [Event.isGwethQuote]
      · subst heq
        simp [Event.isGwethQuote]
    · exact decision_fst_not_gweth env al _ e hdec
  · intro env fc lt bal h1 h2
    apply runSearch_calls_gweth
    · unfold shouldSkipGwethFlag
      simp [not_lt.mpr h1]
    · exact h2
  · intro env ls s o hsome
    exact forwardSizeStep_reset env ls s o hsome

/-- Witness for circuit_breaker_behaviour: the open-breaker tick in
envSkipW quotes no GALA/GWETH; after the retry interval envRetryW quotes
size 1000 again; a successful check in envResetW resets the counter from
two to zero. -/
theorem circuit_breaker_witness :
    ((doTick envSkipW true stOpenBreaker).2.1.all fun e => !e.isGwethQuote) = true ∧
    Event.quoteCall "GALA" "GWETH" 1000 ∈ (runSearch envRetryW 3 0 5000).1 ∧
    (forwardSizeStep envResetW false lsTwoFails 1000).2.gwethFailureCount = 0 := by
  refine ⟨?_, ?_, ?_⟩
  · rw [List.all_eq_true]
    intro e he
    have h := circuit_breaker_behaviour.1 envSkipW true stOpenBreaker
      (by norm_num [stOpenBreaker, GWETH_MAX_FAILURES])
      (by norm_num [envSkipW, envC4x, stOpenBreaker, GWETH_RETRY_INTERVAL]) e he
    simp [h]
  · exact circuit_breaker_behaviour.2.1 envRetryW 3 0 5000
      (by norm_num [envRetryW, envC4x, GWETH_RETRY_INTERVAL])
      (by norm_num [MIN_GALA_AMOUNT])
  · refine circuit_breaker_behaviour.2.2 envResetW lsTwoFails 1000 oppResetW ?_
    simp only [checkArbitrageOpportunity, envResetW, mkTokenKey, feeTierOrDefault, oppResetW,
      BINANCE_MARKET_FEE_RATE, GAS_FEE_GALA, String.reduceEq, String.reduceBEq,
      String.reduceAppend]
    norm_num

/-- C4 counterexample: starting from a clean state, the tick in envC4x
accumulates five consecutive failures (the third occurs at trade size
3000 and stamps gwethLastFailureTime with the tick's clock), yet the
attempts at sizes 4000 and 5000 in the same tick still call the venue-A
quote adapter although they occur within the retry interval of that
stamped failure time. -/
theorem circuit_breaker_counterexample :
    (doTick envC4x true stFresh).1 =
      { lastArbitrageCheck := 60000, gwethFailureCount := 5,
        gwethLastFailureTime := 1000 } ∧
    Event.quoteCall "GALA" "GWETH" 4000 ∈ (doTick envC4x true stFresh).2.1 ∧
    Event.quoteCall "GALA" "GWETH" 5000 ∈ (doTick envC4x true stFresh).2.1 := by
  refine ⟨?_, ?_, ?_⟩
  all_goals
    norm_num [doTick, runSearch, forwardLoop, forwardSizeStep, gwethCheckStep,
      tryAlternativePairs, checkArbitrageOpportunity, recordOpportunity, updateBestOpp,
      reverseBlock, reverseLoop, reverseSizeStep, decisionPhase, shouldExecuteDecision,
      bestUnprofitableOf, validSizes, shouldSkipGwethFlag, feeTierOrDefault, envC4x, stFresh,
      mkTokenKey, TRADE_SIZE_OPTIONS, MIN_GALA_AMOUNT, ARBITRAGE_CHECK_INTERVAL,
      GWETH_MAX_FAILURES, GWETH_RETRY_INTERVAL, ALTERNATIVE_PAIRS]

/-- C8 (amended): the GALA/GWETH failure counter is incremented (and the
failure time stamped with the tick clock) whenever the forward check
returns no opportunity, whatever the reason for the failure — including
a venue-B price being unavailable or a transport error — and is reset
to zero whenever the check returns an opportunity, even an unprofitable
one. -/
theorem failure_counter_behaviour (env : TickEnv) (ls : LoopState) (s : ℚ) :
    ((checkArbitrageOpportunity env s "GALA" "GWETH" "GALAETH" "ETHUSDT").2 = none →
      (forwardSizeStep env false ls s).2.gwethFailureCount = ls.gwethFailureCount + 1 ∧
      (forwardSizeStep env false ls s).2.gwethLastFailureTime = env.nowMs2) ∧
    (∀ o, (checkArbitrageOpportunity env s "GALA" "GWETH" "GALAETH" "ETHUSDT").2 = some o →
      (forwardSizeStep env false ls s).2.gwethFailureCount = 0) := by
  constructor
  · intro hnone
    exact forwardSizeStep_increment env ls s hnone
  · intro o hsome
    exact forwardSizeStep_reset env ls s o hsome

/-- Witness for failure_counter_behaviour: the failed check in envC8x
increments and stamps; the successful check in envResetW resets. -/
theorem failure_counter_witness :
    (forwardSizeStep envC8x false lsEmpty 1000).2.gwethFailureCount =
      lsEmpty.gwethFailureCount + 1 ∧
    (forwardSizeStep envC8x false lsEmpty 1000).2.gwethLastFailureTime = envC8x.nowMs2 ∧
    (forwardSizeStep envResetW false lsTwoFails 1000).2.gwethFailureCount = 0 := by
  have hnone : (checkArbitrageOpportunity envC8x 1000 "GALA" "GWETH" "GALAETH" "ETHUSDT").2
      = none := by
    simp only [checkArbitrageOpportunity, envC8x, mkTokenKey, feeTierOrDefault,
      String.reduceEq, String.reduceBEq, String.reduceAppend]
    norm_num
  have hsome : (checkArbitrageOpportunity envResetW 1000 "GALA" "GWETH" "GALAETH" "ETHUSDT").2
      = some oppResetW := by
    simp only [checkArbitrageOpportunity, envResetW, mkTokenKey, feeTierOrDefault, oppResetW,
      BINANCE_MARKET_FEE_RATE, GAS_FEE_GALA, String.reduceEq, String.reduceBEq,
      String.reduceAppend]
    norm_num
  exact ⟨((failure_counter_behaviour envC8x lsEmpty 1000).1 hnone).1,
         ((failure_counter_behaviour envC8x lsEmpty 1000).1 hnone).2,
         (failure_counter_behaviour envResetW lsTwoFails 1000).2 oppResetW hsome⟩

/-- C8 counterexample: in envC8x the GALA/GWETH quote SUCCEEDS, so there
is no insufficient-liquidity failure, but the venue-B GALAUSDT price is
unavailable; the check returns no opportunity and the failure counter is
incremented anyway, with the failure time stamped. -/
theorem failure_counter_counterexample :
    envC8x.getQuote (mkTokenKey "GALA") (mkTokenKey "GWETH") 1000 =
      QuoteOutcome.ok { amountOut := 1, feeTier := some 3000 } ∧
    envC8x.getPrice "GALAUSDT" = none ∧
    (checkArbitrageOpportunity envC8x 1000 "GALA" "GWETH" "GALAETH" "ETHUSDT").2 = none ∧
    (forwardSizeStep envC8x false lsEmpty 1000).2.gwethFailureCount = 1 ∧
    (forwardSizeStep envC8x false lsEmpty 1000).2.gwethLastFailureTime = 77 := by
  have hnone : (checkArbitrageOpportunity envC8x 1000 "GALA" "GWETH" "GALAETH" "ETHUSDT").2
      = none := by
    simp only [checkArbitrageOpportunity, envC8x, mkTokenKey, feeTierOrDefault,
      String.reduceEq, String.reduceBEq, String.reduceAppend]
    norm_num
  refine ⟨by simp [envC8x, mkTokenKey], by simp [envC8x], hnone, ?_, ?_⟩
  · exact (forwardSizeStep_increment envC8x lsEmpty 1000 hnone).1
  · exact (forwardSizeStep_increment envC8x lsEmpty 1000 hnone).2

/-- C1 (amended): when the forward first leg (the venue-A swap for a
GUSDC/GUSDT receiving token) succeeds and the second leg (the venue-B
GALAUSDT buy) throws, the executor's trace is exactly the two leg
submissions — NO reporter alert is emitted by the execution path and no
compensating or unwinding trade is submitted on either venue — the
executor rethrows, the decision phase catches the error at the tick
boundary (appending the error log after the pre-execution alert), and
every tick returns the normal empty swap result, so the error never
propagates out of doTick. -/
theorem partial_failure_behaviour :
    (∀ (env : TickEnv) (opp : Opportunity) (g : ℚ),
      (receivingTokenOfPair opp.pair = "GUSDC" ∨ receivingTokenOfPair opp.pair = "GUSDT") →
      env.requestSwapOutcome = Except.ok () →
      env.executeTradeOutcome "GALAUSDT" = Except.error () →
      (executeArbitrage env opp g "GalaSwap->Binance").1 =
        [Event.requestSwapCall "GALA" g (receivingTokenOfPair opp.pair)
          opp.receivingTokenAmount,
         Event.binanceTrade "GALAUSDT" "BUY" "MARKET" opp.receivingTokenAmount] ∧
      (executeArbitrage env opp g "GalaSwap->Binance").2 = Except.error ()) ∧
    (∀ (env : TickEnv) (al : Bool) (ls : LoopState) (b : BestOpp),
      ls.bestOpportunity = some b →
      shouldExecuteDecision al (some b) = true →
      (executeArbitrage env b.opp b.tradeAmount b.direction).2 = Except.error () →
      decisionPhase env al ls =
        Event.alert (if decide (b.opp.netProfit ≤ 0) then AlertKind.lossTradeAlert
          else AlertKind.opportunityAlert) ::
          ((executeArbitrage env b.opp b.tradeAmount b.direction).1 ++
            [Event.logTickError])) ∧
    (∀ (env : TickEnv) (al : Bool) (st : StratState),
      (doTick env al st).2.2 = emptyTickResult) := by
  refine ⟨?_, ?_, ?_⟩
  · intro env opp g hrt hswap htrade
    have hx : executeArbitrage env opp g "GalaSwap->Binance" =
        ([Event.requestSwapCall "GALA" g (receivingTokenOfPair opp.pair)
            opp.receivingTokenAmount,
          Event.binanceTrade "GALAUSDT" "BUY" "MARKET" opp.receivingTokenAmount],
         Except.error ()) := by
      unfold executeArbitrage
      rw [if_neg (by simp)]
      dsimp only
      rw [hswap]
      dsimp only
      rcases hrt with h | h
      all_goals rw [h]
      all_goals rw [if_neg (by simp), if_pos (by simp)]
      all_goals rw [htrade]
    exact ⟨by rw [hx], by rw [hx]⟩
  · intro env al ls b hb hex herr
    exact decisionPhase_exec_error env al ls b hb hex herr
  · intro env al st
    exact doTick_snd_empty env al st

/-- Witness for partial_failure_behaviour: the concrete partial failure
in envC1f. -/
theorem partial_failure_witness :
    (executeArbitrage envC1f oppC1 1000 "GalaSwap->Binance").1 =
      [Event.requestSwapCall "GALA" 1000 (receivingTokenOfPair oppC1.pair)
        oppC1.receivingTokenAmount,
       Event.binanceTrade "GALAUSDT" "BUY" "MARKET" oppC1.receivingTokenAmount] ∧
    (executeArbitrage envC1f oppC1 1000 "GalaSwap->Binance").2 = Except.error () ∧
    (doTick envC1f true stFresh).2.2 = emptyTickResult := by
  have hrt : receivingTokenOfPair oppC1.pair = "GUSDC" := by
    simp [receivingTokenOfPair, oppC1, splitSlash]
  have h := partial_failure_behaviour.1 envC1f oppC1 1000 (Or.inl hrt)
    rfl (by simp [envC1f])
  exact ⟨h.1, h.2, partial_failure_behaviour.2.2 envC1f true stFresh⟩

/-- C1 counterexample: in the concrete partial-failure tick the
execution path emits ZERO reporter alerts (the claim demands exactly one
unbalanced-position alert); the only alert of the whole tick is the
pre-execution opportunity alert, emitted identically when the second leg
succeeds, so no alert at all is tied to the failure; the error log shows
the throw was caught at the tick boundary. -/
theorem partial_failure_counterexample :
    (executeArbitrage envC1f oppC1 1000 "GalaSwap->Binance").2 = Except.error () ∧
    (executeArbitrage envC1f oppC1 1000 "GalaSwap->Binance").1.filter Event.isAlert = [] ∧
    (doTick envC1f true stFresh).2.1.filter Event.isAlert =
      [Event.alert AlertKind.opportunityAlert] ∧
    (doTick envC1s true stFresh).2.1.filter Event.isAlert =
      [Event.alert AlertKind.opportunityAlert] ∧
    Event.logTickError ∈ (doTick envC1f true stFresh).2.1 := by
  refine ⟨?_, ?_, ?_, ?_, ?_⟩
  all_goals
    repeat
      first
      | rfl
      | (simp only [doTick, runSearch, forwardLoop, forwardSizeStep, gwethCheckStep,
          tryAlternativePairs, checkArbitrageOpportunity, recordOpportunity, updateBestOpp,
          reverseBlock, reverseLoop, reverseSizeStep, decisionPhase, shouldExecuteDecision,
          bestUnprofitableOf, executeArbitrage, executeReverseArbitrage, receivingTokenOfPair,
          splitSlash, validSizes, shouldSkipGwethFlag, feeTierOrDefault, envC1f, envC1s, oppC1,
          stFresh, mkTokenKey, Event.isAlert, List.filter, TRADE_SIZE_OPTIONS, MIN_GALA_AMOUNT,
          ARBITRAGE_CHECK_INTERVAL, GWETH_MAX_FAILURES, GWETH_RETRY_INTERVAL, ALTERNATIVE_PAIRS,
          MIN_PROFIT_GALA, BINANCE_MARKET_FEE_RATE, GAS_FEE_GALA, String.reduceEq,
          String.reduceBEq, String.reduceAppend, String.reduceMk, Char.reduceEq,
          List.getElem?_cons_zero, List.getElem?_cons_succ, List.cons_ne_nil, ne_eq,
          reduceCtorEq, List.mem_cons, List.mem_singleton, List.not_mem_nil])
      | norm_num

/-- C10: every invocation of doTick, whatever the environment, the loss
setting, the state, and however the evaluations and executions inside
the tick fare, returns a result whose swapsToTerminate, swapsToAccept
and swapsToCreate are all the empty list. -/
theorem strategy_creates_no_swaps (env : TickEnv) (al : Bool) (st : StratState) :
    (doTick env al st).2.2.swapsToTerminate = [] ∧
    (doTick env al st).2.2.swapsToAccept = [] ∧
    (doTick env al st).2.2.swapsToCreate = [] := by
  rw [doTick_snd_empty env al st]
  exact ⟨rfl, rfl, rfl⟩

end TradingBot
